import Mathlib

/-!
Verification development for the libaah_rtp receive pipeline
(`media/libaah_rtp/aah_rx_player_substream.cpp`, `media/libaah_rtp/aah_decoder_pump.cpp`,
`media/libaah_rtp/aah_tx_packet.h`).

The shallow embedding uses `List Nat` for byte buffers (each element is one
`uint8_t` value), `Nat` for the unsigned 32-bit fields (all arithmetic on them in
the modelled code paths stays far below `2^32`, and the one place a `uint32_t`
is read from the wire, `U32_AT`, is modelled exactly as the big-endian
recombination the macro performs), and `Int` for `status_t` values (`OK = 0`).
Bitwise tests on flag bytes (`x & 0x01`, `(x >> 4) & 0xF`, ...) are translated
to the equivalent `/` and `%` arithmetic on `Nat`.
-/

/-- Android `status_t` success value `OK`. -/
def statusOK : Int := 0

/-- Android `status_t` value `BAD_VALUE` (`-EINVAL`). -/
def BAD_VALUE : Int := -22

/-- Android `status_t` value `INVALID_OPERATION` (`-ENOSYS`). -/
def INVALID_OPERATION : Int := -38

/-- Byte access `buf[i]` on a byte buffer; all modelled reads are guarded by
length checks performed by the code itself, so the default 0 is never the
value actually used in a reachable read. -/
def byteAt (buf : List Nat) (i : Nat) : Nat := buf.getD i 0

/-- Big-endian 32-bit read `U32_AT(buf + off)` from `media/stagefright` byte
order helpers: `(b0 << 24) | (b1 << 16) | (b2 << 8) | b3`. -/
def u32At (buf : List Nat) (off : Nat) : Nat :=
  ((byteAt buf off * 256 + byteAt buf (off + 1)) * 256 + byteAt buf (off + 2)) * 256
    + byteAt buf (off + 3)

/-- Big-endian encoding of a 32-bit value, used to build concrete wire packets
(the transmit direction of the same wire format, `aah_tx_packet.h`). -/
def encodeU32 (n : Nat) : List Nat :=
  [n / 2 ^ 24 % 256, n / 2 ^ 16 % 256, n / 2 ^ 8 % 256, n % 256]

/-- State of one `AAH_RXPlayer::Substream` (aah_rx_player_substream.cpp), as
far as the packet-reassembly claims need it.  `buffer` holds the bytes written
so far into the in-progress `MediaBuffer` (the `memcpy` at offset
`buffer_filled_` coincides with list append because `data.length = filled` in
every reachable state, which is proved as part of the C10 invariant).
`pump_volume` is the `AAH_DecoderPump::last_volume_` member, the piece of pump
state the substream parser writes through `setRenderVolume` while parsing.
`reassembled` records each access unit (payload bytes, aux bytes) whose
reassembly completed, i.e. each entry to `processCompletedBuffer`; the
downstream metadata derivation and decoder handoff performed inside
`processCompletedBuffer` are modelled separately (`setupMP3SubstreamMeta`,
`setupAACSubstreamMeta`, and the pump operations). -/
structure SubState where
  substream_details_known : Bool
  substream_type : Nat
  codec_type : Nat
  status : Int
  buffer : Option (List Nat)
  expected_buffer_size : Nat
  buffer_filled : Nat
  waiting_for_rap : Bool
  aux_data_in_progress : List Nat
  aux_data_expected_size : Nat
  pump_volume : Nat
  reassembled : List (List Nat × List Nat)
deriving DecidableEq, Repr

/-- Effect of `AAH_RXPlayer::Substream::cleanupBufferInProgress` (lines 72-84):
release any in-progress buffer, zero the bookkeeping, and re-arm the
`waiting_for_rap_` gate.  Note this helper is the ONLY place in the source
that writes `waiting_for_rap_`, and it writes `true`. -/
def cleanupBufferInProgress (st : SubState) : SubState :=
  { st with
      buffer := none
      expected_buffer_size := 0
      buffer_filled := 0
      waiting_for_rap := true
      aux_data_in_progress := []
      aux_data_expected_size := 0 }

/-- Fresh substream state right after the `Substream` constructor (which calls
`cleanupBufferInProgress`); `substream_type_` and `codec_type_` are
uninitialized members in C++, read only once `substream_details_known_` is
true, so 0 stands in for their indeterminate initial values.  The pump's
`last_volume_` starts at `0xFF`. -/
def initialSubstream : SubState :=
  { substream_details_known := false
    substream_type := 0
    codec_type := 0
    status := 0
    buffer := none
    expected_buffer_size := 0
    buffer_filled := 0
    waiting_for_rap := true
    aux_data_in_progress := []
    aux_data_expected_size := 0
    pump_volume := 255
    reassembled := [] }

/-- Model of `AAH_RXPlayer::Substream::setupSubstreamType` (lines 643-675):
`none` means the fragment is rejected (`return false`), `some` carries the
possibly-updated state.  `kCodecMPEG1Audio = 3`, `kCodecAACAudio = 4`
(aah_tx_packet.h). -/
def setupSubstreamType (st : SubState) (substream_type codec_type : Nat) :
    Option SubState :=
  if st.substream_details_known then
    if codec_type ≠ st.codec_type then none else some st
  else
    if codec_type = 3 ∨ codec_type = 4 then
      some { st with
               substream_type := substream_type
               codec_type := codec_type
               substream_details_known := true }
    else none

/-- Model of `AAH_DecoderPump::setRenderVolume` (aah_decoder_pump.cpp lines
207-221) restricted to the state it mutates, the cached `last_volume_`; the
push to an existing renderer does not feed back into any modelled state. -/
def setRenderVolume (st : SubState) (volume : Nat) : SubState :=
  if volume = st.pump_volume then st else { st with pump_volume := volume }

/-- Model of `AAH_RXPlayer::Substream::processCompletedBuffer` (lines 402-465)
at the reassembly level: record the completed unit together with its
accumulated aux bytes, then release the in-progress buffer exactly once via
`cleanupBufferInProgress`.  The `none` arm mirrors the
`CHECK(NULL != buffer_in_progress_)` precondition (never reached: both call
sites guard on a full in-progress buffer). -/
def processCompletedBuffer (st : SubState) : SubState :=
  match st.buffer with
  | none => st
  | some data =>
      cleanupBufferInProgress
        { st with
            reassembled := st.reassembled ++ [(data, st.aux_data_in_progress)]
            buffer := none }

/-- Common tail of `processPayloadStart` from line 278 on: the
aux-plus-header versus total length check, payload size computation,
buffer allocation (modelled as always succeeding), the copy of the trailing
fragment bytes (aux first, then payload, `min` at each capacity), and the
completion check.  `buffer_filled_ = amt` at line 347 assigns the value `amt`
holds at that point, i.e. the trailing byte count after the aux bytes were
consumed.  The source guards the two copy blocks with `if (todo)` /
`if (todo > 0)`; when the count is zero each guarded block is the identity
(it appends zero bytes, and the `buffer_filled_ = amt` store writes the value
0 it already has, since `todo = min(expected, amt) = 0` with `expected > 0`
forces `amt = 0`), so the guards are dropped here. -/
def startFillBuffer (st : SubState) (buf : List Nat)
    (trtp_len trtp_header_len : Nat) : SubState :=
  let amt := buf.length
  if st.aux_data_expected_size + trtp_header_len > trtp_len then st else
  let expected := trtp_len - trtp_header_len - st.aux_data_expected_size
  let st := { st with expected_buffer_size := expected }
  if expected = 0 then st else
  let todo0 := amt - trtp_header_len
  if expected + st.aux_data_expected_size < todo0 then st else
  let st := { st with buffer_filled := 0, buffer := some [] }
  let rest := buf.drop trtp_header_len
  let auxTodo := min st.aux_data_expected_size rest.length
  let st := { st with aux_data_in_progress := st.aux_data_in_progress ++ rest.take auxTodo }
  let rest2 := rest.drop auxTodo
  let amt2 := rest.length - auxTodo
  let payTodo := min expected amt2
  let st := { st with buffer := some (rest2.take payTodo), buffer_filled := amt2 }
  if st.buffer_filled ≥ st.expected_buffer_size then processCompletedBuffer st else st

/-- Aux-length stage of `processPayloadStart` (lines 251-283 plus the fill
phase): when the aux-length flag (0x10) is set, extend the running length
accounting by the 4 aux-length bytes, reject on short declared or delivered
length, record the declared aux size and clear the aux accumulator; otherwise
declare zero aux bytes; then run the fill phase.  `min_length3` is the common
value the source's `min_length` and `trtp_header_len` accumulators hold when
the three audio bytes have been read. -/
def startAuxPhase (st : SubState) (buf : List Nat)
    (trtp_len parse_offset min_length3 : Nat) : SubState :=
  let amt := buf.length
  let flags := byteAt buf (parse_offset + 1)
  if flags / 16 % 2 = 1 then
    if trtp_len < min_length3 + 4 then st else
    if amt < min_length3 + 4 then st else
    startFillBuffer
      { st with
          aux_data_expected_size := u32At buf (parse_offset + 3)
          aux_data_in_progress := [] }
      buf trtp_len (min_length3 + 4)
  else
    startFillBuffer { st with aux_data_expected_size := 0 } buf trtp_len min_length3

/-- Substream kind read from the high nibble of the second header byte:
`(buf[1] >> 4) & 0xF`; `kHeaderTypeAudio = 1`. -/
def headerType (buf : List Nat) : Nat := byteAt buf 1 / 16 % 16

/-- Timestamp-present flag `buf[1] & kFlag_TSValid` (0x01). -/
def tsValidFlag (buf : List Nat) : Bool := byteAt buf 1 % 2 = 1

/-- Clock-transform-present flag `buf[1] & kFlag_TSTransformPresent` (0x02). -/
def tfPresentFlag (buf : List Nat) : Bool := byteAt buf 1 / 2 % 2 = 1

/-- Value of the source's `min_length` accumulator after the timestamp
check: 6, plus 4 when a timestamp is present. -/
def minLength1 (buf : List Nat) : Nat := if tsValidFlag buf then 10 else 6

/-- Value of the `min_length` accumulator after the clock-transform check:
`minLength1` plus 24 when a transform is present. -/
def minLength2 (buf : List Nat) : Nat :=
  if tfPresentFlag buf then minLength1 buf + 24 else minLength1 buf

/-- Value of both the `min_length` and `trtp_header_len` accumulators once
the three audio bytes are counted. -/
def minLength3 (buf : List Nat) : Nat := minLength2 buf + 3

/-- Value of the source's `parse_offset` when the audio bytes are read: 6,
plus 4 for a timestamp, plus 24 for a clock transform. -/
def parseOffset (buf : List Nat) : Nat :=
  (if tsValidFlag buf then 10 else 6) + (if tfPresentFlag buf then 24 else 0)

/-- Parse chain of `AAH_RXPlayer::Substream::processPayloadStart` (lines
124-355) from the point no buffer is in progress.  Every early `return` of
the source is an `if ... then st`; the running `min_length` /
`trtp_header_len` accumulators of the source are hoisted into the
`minLength1` / `minLength2` / `minLength3` / `parseOffset` helpers above.
`ts_lower` and the parsed timestamp only flow into the completed unit's
metadata, which no claim consults, so they are not carried. -/
def processPayloadStartIdle (st : SubState) (buf : List Nat) : SubState :=
  if buf.length < 6 then st else
  if byteAt buf 0 ≠ 1 then st else
  if headerType buf ≠ 1 then st else
  if st.substream_details_known ∧ headerType buf ≠ st.substream_type then st else
  if tsValidFlag buf ∧ buf.length < minLength1 buf then st else
  if u32At buf 2 < minLength1 buf then st else
  if tfPresentFlag buf ∧ buf.length < minLength2 buf then st else
  if u32At buf 2 < minLength3 buf then st else
  if buf.length < minLength3 buf then st else
  match setupSubstreamType st (headerType buf) (byteAt buf (parseOffset buf)) with
  | none => st
  | some st1 =>
    let st2 := setRenderVolume st1 (byteAt buf (parseOffset buf + 2))
    if st2.waiting_for_rap ∧ byteAt buf (parseOffset buf + 1) / 8 % 2 ≠ 1 then st2 else
    startAuxPhase st2 buf (u32At buf 2) (parseOffset buf) (minLength3 buf)

/-- Model of `AAH_RXPlayer::Substream::processPayloadStart` (lines 104-355),
entry point: the `shouldAbort` fatal-status check, then the
abort-of-a-buffer-already-in-progress (lines 119-122, `cleanupBufferInProgress`
before parsing continues on the same locals), then the idle-state parse. -/
def processPayloadStart (st : SubState) (buf : List Nat) : SubState :=
  if st.status ≠ 0 then st
  else if st.buffer.isSome then processPayloadStartIdle (cleanupBufferInProgress st) buf
  else processPayloadStartIdle st buf

/-- Common tail of `processPayloadCont` from line 381 on: overflow check
against the remaining payload capacity, copy at offset `buffer_filled_`
(list append, justified by the `data.length = filled` invariant), and the
completion check. -/
def contFillBuffer (st : SubState) (data buf : List Nat) : SubState :=
  let buffer_left := st.expected_buffer_size - st.buffer_filled
  if buf.length > buffer_left then cleanupBufferInProgress st else
  let st :=
    if buf.length > 0 then
      { st with buffer := some (data ++ buf), buffer_filled := st.buffer_filled + buf.length }
    else st
  if st.buffer_filled ≥ st.expected_buffer_size then processCompletedBuffer st else st

/-- Model of `AAH_RXPlayer::Substream::processPayloadCont` (lines 357-400).
The two `CHECK`s of the source (`aux size ≤ expected aux size`,
`filled < expected`) are exactly the C10 invariant; the model's `Nat`
subtraction clamps where the source would assert, and the invariant theorem
shows the clamp never engages from a reachable state. -/
def processPayloadCont (st : SubState) (buf : List Nat) : SubState :=
  if st.status ≠ 0 then st else
  match st.buffer with
  | none => st
  | some data =>
    let aux_left := st.aux_data_expected_size - st.aux_data_in_progress.length
    if aux_left ≠ 0 then
      let todo := min aux_left buf.length
      let st1 := { st with aux_data_in_progress := st.aux_data_in_progress ++ buf.take todo }
      let buf2 := buf.drop todo
      if buf2.length = 0 then st1 else contFillBuffer st1 data buf2
    else contFillBuffer st data buf

/-- Model of `AAH_RXPlayer::Substream::shutdown` (lines 65-70) on the
reassembly state: reset `status_`, release any in-progress buffer.  The
metadata and decoder teardown live in the separately modelled layers. -/
def shutdownSubstream (st : SubState) : SubState :=
  cleanupBufferInProgress { st with status := 0 }

/-!
Decoder pump models (`aah_decoder_pump.cpp`).
-/

/-- Outcome of one timed `decoder_->read(&bufOut)` call as observed by the
worker loop of `AAH_DecoderPump::workThread` (lines 298-389): a successful
decode (with or without an output buffer), the distinguished
`INFO_FORMAT_CHANGED` status, or a failure with its `status_t` and the
measured duration of the step in microseconds. -/
inductive DecodeOutcome where
  | success (hasOutput : Bool)
  | formatChanged
  | failure (res : Int) (durationUsecs : Int)
deriving DecidableEq, Repr

/-- State the worker loop of `AAH_DecoderPump::workThread` threads between
iterations: the two consecutive-error counters, the pump's `thread_status_`,
and whether the loop has exited. -/
structure WorkerState where
  consecutive_errors : Nat
  consecutive_long_errors : Nat
  thread_status : Int
  exited : Bool
deriving DecidableEq, Repr

/-- Worker state at loop entry after a successful `decoder_->start` (line
291 left `thread_status_ = OK`). -/
def initialWorkerState : WorkerState :=
  { consecutive_errors := 0
    consecutive_long_errors := 0
    thread_status := 0
    exited := false }

/-- One iteration of the worker loop of `AAH_DecoderPump::workThread` (lines
302-389) on one decode outcome.  `kLongDecodeErrorThreshold = 1000000`,
`kMaxErrorsBeforeFatal = 60`, `kMaxLongErrorsBeforeFatal = 3` (lines 39-41).
`INFO_FORMAT_CHANGED` tears down the renderer (not carried in this state) and
is then treated as `res = OK` with no output.  A failure increments
`consecutive_errors`, also `consecutive_long_errors` when the step took at
least the long threshold, and when either counter reaches its ceiling the
loop records the failing status as `thread_status_` and breaks.  A successful
decode that produced output resets both counters. -/
def workerStep (st : WorkerState) (outcome : DecodeOutcome) : WorkerState :=
  if st.exited then st else
  match outcome with
  | .success false => st
  | .success true => { st with consecutive_errors := 0, consecutive_long_errors := 0 }
  | .formatChanged => st
  | .failure res dur =>
    if res = 0 then st else
    let ce := st.consecutive_errors + 1
    let cle :=
      if dur ≥ 1000000 then st.consecutive_long_errors + 1 else st.consecutive_long_errors
    if ce ≥ 60 ∨ cle ≥ 3 then
      { st with
          consecutive_errors := ce
          consecutive_long_errors := cle
          thread_status := res
          exited := true }
    else { st with consecutive_errors := ce, consecutive_long_errors := cle }

/-- Worker loop run over a whole sequence of decode outcomes. -/
def runWorker (st : WorkerState) (outcomes : List DecodeOutcome) : WorkerState :=
  outcomes.foldl workerStep st

/-- Model of `AAH_DecoderPump::queueForDecode` (lines 67-84): fail immediately
with the recorded `thread_status_` when it is not `OK`, otherwise push the
buffer at the back of the FIFO.  Returns the `status_t` and the new queue. -/
def queueForDecode (thread_status : Int) (queue : List Nat) (buf : Nat) :
    Int × List Nat :=
  if thread_status ≠ 0 then (thread_status, queue) else (0, queue ++ [buf])

/-- Model of `AAH_DecoderPump::read` (lines 481-506) at the point the wait
loop has released the worker, i.e. when `exitPending ∨ queue ≠ []`.  The
source pops the FIFO head only when exit is NOT pending; whenever exit is
pending it leaves the queue untouched and reports `INVALID_OPERATION`
(no more data), even if entries remain queued.  Result: (status, popped
buffer, remaining queue). -/
def pumpRead (exitPending : Bool) (queue : List Nat) : Int × Option Nat × List Nat :=
  if exitPending = false then
    match queue with
    | b :: rest => (0, some b, rest)
    | [] => (INVALID_OPERATION, none, [])
  else (INVALID_OPERATION, none, queue)

/-- Iterated `pumpRead` with exit never pending, collecting the delivered
buffers in order; used to state the FIFO-order part of the `read` contract. -/
def pumpReadMany (queue : List Nat) : Nat → List Nat × List Nat
  | 0 => ([], queue)
  | n + 1 =>
    match pumpRead false queue with
    | (_, some b, rest) =>
      let p := pumpReadMany rest n
      (b :: p.1, p.2)
    | (_, none, rest) => ([], rest)

/-- Optional-field view of the `MetaData` keys `AAH_DecoderPump::init`
consults: `kKeyChannelCount` and `kKeySampleRate`; `findInt32` yields the
value only when the key is present. -/
structure MetaParams where
  channelCount : Option Int
  sampleRate : Option Int
deriving DecidableEq, Repr

/-- State of the pump that `AAH_DecoderPump::init` (lines 397-451) touches:
whether a decode engine exists (`decoder_ != NULL` means initialized), the
cached format and its two extracted fields, and `thread_status_`. -/
structure PumpInitState where
  decoderPresent : Bool
  format : Option MetaParams
  format_channels : Int
  format_sample_rate : Int
  thread_status : Int
deriving DecidableEq, Repr

/-- Pump state as left by the `AAH_DecoderPump` constructor (lines 43-52);
`format_channels_` and `format_sample_rate_` are uninitialized members, 0
stands in for their indeterminate values. -/
def initialPumpInitState : PumpInitState :=
  { decoderPresent := false
    format := none
    format_channels := 0
    format_sample_rate := 0
    thread_status := 0 }

/-- Model of `AAH_DecoderPump::init` (lines 397-451).  The two external call
results are parameters: `createOk` is whether `OMXCodec::Create` returned a
non-NULL decoder, `runResult` the `status_t` of `thread_->run`.  Mirrors the
source exactly: already-initialized is a no-op returning `OK`; a missing
params pointer or missing channel-count/sample-rate key returns `BAD_VALUE`
(`findInt32` writes the extracted field only when the key is present, in the
order channel count then sample rate); on `OMXCodec::Create` failure or
`thread_->run` failure the `bailout` block clears `decoder_` and `format_`,
and the function then executes its final statement, `return OK` (line 450) —
it never returns the tracked `ret_val`. -/
def pumpInit (p : PumpInitState) (params : Option MetaParams) (createOk : Bool)
    (runResult : Int) : Int × PumpInitState :=
  if p.decoderPresent then (0, p) else
  match params with
  | none => (BAD_VALUE, p)
  | some ps =>
    match ps.channelCount with
    | none => (BAD_VALUE, p)
    | some ch =>
      let p := { p with format_channels := ch }
      match ps.sampleRate with
      | none => (BAD_VALUE, p)
      | some sr =>
        let p := { p with format_sample_rate := sr }
        let p := { p with format := some ps, decoderPresent := createOk }
        if createOk = false then (0, { p with decoderPresent := false, format := none })
        else if runResult ≠ 0 then (0, { p with decoderPresent := false, format := none })
        else (0, p)

/-- Render-side state of the pump consulted by
`AAH_DecoderPump::isAboutToUnderflow` (lines 251-278): validity flag and value
of the last successfully queued presentation timestamp, and the validity flag
of the cached media-time-to-common-time transform. -/
structure RenderState where
  last_queued_pts_valid : Bool
  last_queued_pts : Int
  last_ts_transform_valid : Bool
deriving DecidableEq, Repr

/-- Render state as left by the `AAH_DecoderPump` constructor: nothing queued
yet, no transform. -/
def initialRenderState : RenderState :=
  { last_queued_pts_valid := false
    last_queued_pts := 0
    last_ts_transform_valid := false }

/-- Model of `AAH_DecoderPump::isAboutToUnderflow` (lines 251-278).  The two
external calls are parameters: `commonTimeResult` is the value
`cc_helper_.getCommonTime` produced (`none` when it failed), and `xform` is
`last_ts_transform_.doForwardTransform`, the affine media-to-common-time map
of the external `LinearTransform` utility (`none` when it reports overflow).
Returns `false` when nothing was ever queued or no transform is valid, `false`
when common time is unreadable, `false` when the transform fails, and
otherwise the sign test `tt_now + threshold - last_queued_pts_tt > 0`. -/
def isAboutToUnderflow (st : RenderState) (threshold : Int)
    (commonTimeResult : Option Int) (xform : Int → Option Int) : Bool :=
  if st.last_queued_pts_valid = false ∨ st.last_ts_transform_valid = false then false else
  match commonTimeResult with
  | none => false
  | some tt_now =>
    match xform st.last_queued_pts with
    | none => false
    | some last_queued_pts_tt => decide (tt_now + threshold - last_queued_pts_tt > 0)

/-!
Codec metadata layer (`setupSubstreamMeta` and its two codec-specific
helpers, aah_rx_player_substream.cpp lines 467-627).
-/

/-- Contents of the `substream_meta_` `MetaData` object as the two codec
helpers use it: sample rate, channel count, and (for AAC) the optional
`kKeyESDS` codec-configuration blob.  The `uint32_t` wire values are kept as
`Nat`; the `int32_t` reinterpretation the source performs is injective on one
32-bit word, so every equality test the source makes is preserved. -/
structure SubMeta where
  sampleRate : Nat
  channelCount : Nat
  esds : Option (List Nat)
deriving DecidableEq, Repr

/-- Metadata-layer state: the substream's cached metadata object and whether
the decode engine is (still) up; `cleanupDecoder` (which shuts the pump's
engine down) is modelled as setting `decoderAlive := false`. -/
structure MetaState where
  substream_meta : Option SubMeta
  decoderAlive : Bool
deriving DecidableEq, Repr

/-- Model of `AAH_RXPlayer::Substream::setupMP3SubstreamMeta` (lines
486-545).  The MP3 frame-header parse (`GetMPEGAudioFrameSize`, an external
stagefright utility) is a parameter: `none` when the parse failed, otherwise
the extracted (sample rate, channel count).  `bufLen` is the completed unit's
byte length.  Returns (success flag, new state).  On a first unit the derived
metadata is adopted; on a later unit a differing channel count or sample rate
forces `cleanupDecoder` and updates the two fields in place; identical fields
leave everything untouched. -/
def setupMP3SubstreamMeta (st : MetaState) (bufLen : Nat)
    (parse : Option (Nat × Nat)) : Bool × MetaState :=
  if bufLen < 4 then (false, st) else
  match parse with
  | none => (false, st)
  | some (sample_rate, channel_count) =>
    match st.substream_meta with
    | none =>
      (true, { st with substream_meta := some ⟨sample_rate, channel_count, none⟩ })
    | some m =>
      if m.channelCount ≠ channel_count ∨ m.sampleRate ≠ sample_rate then
        (true, { substream_meta :=
                   some { m with sampleRate := sample_rate, channelCount := channel_count }
                 decoderAlive := false })
      else (true, st)

/-- Model of `AAH_RXPlayer::Substream::setupAACSubstreamMeta` (lines
547-627).  `aux` is the accumulated aux-data byte list; the first 8 bytes are
the big-endian sample rate and channel count, any remainder the ESDS blob.
With prior metadata, a change in ESDS presence, ESDS contents, sample rate,
or channel count forces `cleanupDecoder` and a freshly built metadata object;
no change returns with the prior object untouched. -/
def setupAACSubstreamMeta (st : MetaState) (aux : List Nat) : Bool × MetaState :=
  if aux.length < 8 then (false, st) else
  let sample_rate := u32At aux 0
  let channel_cnt := u32At aux 4
  let esds : Option (List Nat) := if aux.length > 8 then some (aux.drop 8) else none
  match st.substream_meta with
  | none =>
    (true, { st with substream_meta := some ⟨sample_rate, channel_cnt, esds⟩ })
  | some m =>
    let esds_change :=
      match m.esds, esds with
      | none, none => false
      | some _, none => true
      | none, some _ => true
      | some a, some b => a ≠ b
    if esds_change = false ∧ m.sampleRate = sample_rate ∧ m.channelCount = channel_cnt then
      (true, st)
    else
      (true, { substream_meta := some ⟨sample_rate, channel_cnt, esds⟩
               decoderAlive := false })

/-!
Definitions supporting the claim theorems: reachable-state invariant of the
reassembler, packet constructors for the wire format, and the intermediate
accumulation states of a multi-fragment delivery.
-/

/-- Invariant of the reassembly state maintained by every substream
operation: while no buffer is in progress the aux accumulator is empty, and
while a buffer is in progress the buffer content length equals
`buffer_filled_`, the fill is strictly below the declared payload size, and
the accumulated aux bytes never exceed the declared aux size.  The last two
conjuncts are exactly the two `CHECK` assertions guarding
`processPayloadCont` (lines 369 and 381). -/
def SubInv (st : SubState) : Prop :=
  (st.buffer = none → st.aux_data_in_progress = []) ∧
  ∀ data, st.buffer = some data →
    data.length = st.buffer_filled ∧
    st.buffer_filled < st.expected_buffer_size ∧
    st.aux_data_in_progress.length ≤ st.aux_data_expected_size

/-- Header length of a TRTP audio payload: 6 fixed bytes, 4 optional
timestamp-high bytes, 24 optional clock-transform bytes, 3 audio bytes
(codec, flags, volume), 4 optional aux-length bytes. -/
def audioHeaderLen (tsv tf auxp : Bool) : Nat :=
  9 + (if tsv then 4 else 0) + (if tf then 24 else 0) + (if auxp then 4 else 0)

/-- Construction of a TRTP audio fragment-start packet with the given header
options, declared total length `trtpLen`, declared aux length `auxSize` (only
encoded when `auxp`), audio flags 0x08 (random access point) plus 0x10 when
an aux length is present, and trailing bytes `data` (aux bytes then payload
bytes).  This is the receive-side wire layout of
`TRTPAudioPacket::pack` (aah_tx_packet.h). -/
def mkAudioPacket (tsv tf : Bool) (tsHigh : Nat) (tfBytes : List Nat)
    (codec volume : Nat) (auxp : Bool) (auxSize : Nat) (trtpLen : Nat)
    (data : List Nat) : List Nat :=
  [1, 16 + (if tsv then 1 else 0) + (if tf then 2 else 0)]
    ++ encodeU32 trtpLen
    ++ (if tsv then encodeU32 tsHigh else [])
    ++ (if tf then tfBytes else [])
    ++ [codec, if auxp then 24 else 8, volume]
    ++ (if auxp then encodeU32 auxSize else [])
    ++ data

/-- Substream state right after the header of an accepted audio
fragment-start has been parsed on a fresh substream: details established
(audio substream, given codec), volume forwarded to the pump. -/
def parsedBase (codec volume : Nat) : SubState :=
  { initialSubstream with
      substream_details_known := true
      substream_type := 1
      codec_type := codec
      pump_volume := volume }

/-- Accumulation state of a substream that has consumed the first `k` bytes
of the logical trailing data `auxAll ++ payAll` of one access unit: the aux
accumulator holds the first `min k auxAll.length` bytes, the in-progress
buffer the following ones. -/
def accumState (base : SubState) (auxAll payAll : List Nat) (k : Nat) : SubState :=
  { base with
      buffer := some (payAll.take (k - auxAll.length))
      expected_buffer_size := payAll.length
      buffer_filled := k - auxAll.length
      aux_data_in_progress := auxAll.take k
      aux_data_expected_size := auxAll.length }

/-- Valid single-fragment MP3 TRTP audio payload with the random-access-point
flag set: version 1, audio kind, no timestamp, no transform, total length 10
(9 header bytes + 1 payload byte 42), codec MP3 (3), audio flags 0x08 (RAP),
volume 200. -/
def rapMP3Packet : List Nat := [1, 16, 0, 0, 0, 10, 3, 8, 200, 42]

/-- The same shape of payload without the random-access-point flag (audio
flags 0): payload byte 43. -/
def nonRapMP3Packet : List Nat := [1, 16, 0, 0, 0, 10, 3, 0, 200, 43]


/-- Decision of whether a fragment-start buffer hits one of the rejection
checks the source performs BEFORE the parsed codec/flags stage mutates any
state (aah_rx_player_substream.cpp lines 127-240): short buffer, bad
version, non-audio or unknown header kind, header-kind mismatch, truncated
timestamp or clock-transform, short declared length, and the
`setupSubstreamType` rejections (codec mismatch against an established
substream, or unsupported codec). -/
def earlyMalformedReject (st : SubState) (buf : List Nat) : Bool :=
  decide (buf.length < 6) ||
  decide (byteAt buf 0 ≠ 1) ||
  decide (headerType buf ≠ 1) ||
  (st.substream_details_known && decide (headerType buf ≠ st.substream_type)) ||
  (tsValidFlag buf && decide (buf.length < minLength1 buf)) ||
  decide (u32At buf 2 < minLength1 buf) ||
  (tfPresentFlag buf && decide (buf.length < minLength2 buf)) ||
  decide (u32At buf 2 < minLength3 buf) ||
  decide (buf.length < minLength3 buf) ||
  (st.substream_details_known && decide (byteAt buf (parseOffset buf) ≠ st.codec_type)) ||
  (decide (st.substream_details_known = false) &&
    decide (byteAt buf (parseOffset buf) ≠ 3) &&
    decide (byteAt buf (parseOffset buf) ≠ 4))

/-!
Claim theorems: decoder pump.
-/

/-- C1: in the worker loop, when a failed decode step brings the consecutive
failure count to 60, or is a long step (duration at least 1,000,000 usec)
bringing the consecutive long-failure count to 3, the loop records the
failing status as terminal `thread_status_` and exits; once exited the loop
state never changes again and every `queueForDecode` call fails with the
recorded status, leaving the FIFO untouched; a successful step that produced
output resets both counters to zero. -/
theorem worker_error_budget_terminal :
    (∀ (st : WorkerState) (res dur : Int), st.exited = false → res ≠ 0 →
      (60 ≤ st.consecutive_errors + 1 ∨
        (1000000 ≤ dur ∧ 3 ≤ st.consecutive_long_errors + 1)) →
      (workerStep st (.failure res dur)).exited = true ∧
      (workerStep st (.failure res dur)).thread_status = res ∧
      ∀ (q : List Nat) (buf : Nat),
        queueForDecode (workerStep st (.failure res dur)).thread_status q buf = (res, q)) ∧
    (∀ (st : WorkerState) (outcomes : List DecodeOutcome), st.exited = true →
      runWorker st outcomes = st) ∧
    (∀ (st : WorkerState), st.exited = false →
      (workerStep st (.success true)).consecutive_errors = 0 ∧
      (workerStep st (.success true)).consecutive_long_errors = 0) := by
  refine ⟨?_, ?_, ?_⟩
  · intro st res dur hex hres hceil
    have hcond : st.consecutive_errors + 1 ≥ 60 ∨
        (if dur ≥ 1000000 then st.consecutive_long_errors + 1
         else st.consecutive_long_errors) ≥ 3 := by
      rcases hceil with h | ⟨hd, hc⟩
      · exact Or.inl h
      · right; rw [if_pos hd]; exact hc
    have hstep : workerStep st (.failure res dur) =
        { st with
            consecutive_errors := st.consecutive_errors + 1
            consecutive_long_errors :=
              if dur ≥ 1000000 then st.consecutive_long_errors + 1
              else st.consecutive_long_errors
            thread_status := res
            exited := true } := by
      simp only [workerStep, hex, Bool.false_eq_true, if_false, if_neg hres, if_pos hcond]
    refine ⟨by rw [hstep], by rw [hstep], ?_⟩
    intro q buf
    rw [hstep]
    simp only [queueForDecode, if_pos hres]
  · intro st outcomes hex
    induction outcomes with
    | nil => rfl
    | cons o rest ih =>
      have hstep : workerStep st o = st := by
        simp only [workerStep, hex, if_true]
      simpa [runWorker, hstep] using ih
  · intro st hex
    simp [workerStep, hex]

/-- Witness for `worker_error_budget_terminal`: a 60th consecutive short
failure (status -1) from a live worker makes the pump terminal and a
subsequent enqueue of buffer 7 onto an empty FIFO fails with -1. -/
theorem worker_error_budget_terminal_witness :
    (workerStep ⟨59, 0, 0, false⟩ (.failure (-1) 0)).exited = true ∧
    queueForDecode (workerStep ⟨59, 0, 0, false⟩ (.failure (-1) 0)).thread_status [] 7
      = (-1, []) :=
  ⟨(worker_error_budget_terminal.1 ⟨59, 0, 0, false⟩ (-1) 0 rfl (by decide)
      (Or.inl (by decide))).1,
   (worker_error_budget_terminal.1 ⟨59, 0, 0, false⟩ (-1) 0 rfl (by decide)
      (Or.inl (by decide))).2.2 [] 7⟩

/-- C5 counterexample: with a fresh pump and a complete format (2 channels,
44100 Hz), a failed `OMXCodec::Create` still makes `init` return `OK`
(line 450 is an unconditional `return OK`), contradicting the claim that init
returns a failure when decode-engine construction fails; the pump is left
uninitialized (`decoder_` and `format_` cleared) with only the two extracted
format fields written. -/
theorem pumpInit_create_failure_counterexample :
    pumpInit initialPumpInitState (some ⟨some 2, some 44100⟩) false 0
      = (statusOK,
         { initialPumpInitState with format_channels := 2, format_sample_rate := 44100 }) ∧
    ¬ (pumpInit initialPumpInitState (some ⟨some 2, some 44100⟩) false 0).1 ≠ statusOK := by
  constructor
  · rfl
  · simp [pumpInit, initialPumpInitState, statusOK]

/-- C5 (amended): `init` is an idempotent no-op returning `OK` when already
initialized; it fails with `BAD_VALUE` when the format is absent or lacks
channel count or sample rate; when decode-engine construction (or the worker
thread start) fails it clears `decoder_` and `format_` but still returns
`OK`, leaving the pump uninitialized rather than reporting a failure. -/
theorem pumpInit_contract :
    (∀ (p : PumpInitState) (params : Option MetaParams) (createOk : Bool) (runResult : Int),
      p.decoderPresent = true → pumpInit p params createOk runResult = (statusOK, p)) ∧
    (∀ (p : PumpInitState) (createOk : Bool) (runResult : Int),
      p.decoderPresent = false → pumpInit p none createOk runResult = (BAD_VALUE, p)) ∧
    (∀ (p : PumpInitState) (ps : MetaParams) (createOk : Bool) (runResult : Int),
      p.decoderPresent = false → ps.channelCount = none →
      pumpInit p (some ps) createOk runResult = (BAD_VALUE, p)) ∧
    (∀ (p : PumpInitState) (ps : MetaParams) (ch : Int) (createOk : Bool) (runResult : Int),
      p.decoderPresent = false → ps.channelCount = some ch → ps.sampleRate = none →
      pumpInit p (some ps) createOk runResult
        = (BAD_VALUE, { p with format_channels := ch })) ∧
    (∀ (p : PumpInitState) (ps : MetaParams) (ch sr : Int) (runResult : Int),
      p.decoderPresent = false → ps.channelCount = some ch → ps.sampleRate = some sr →
      pumpInit p (some ps) false runResult
        = (statusOK,
           { p with
               format_channels := ch
               format_sample_rate := sr
               format := none
               decoderPresent := false })) := by
  refine ⟨?_, ?_, ?_, ?_, ?_⟩
  · intro p params createOk runResult h
    simp [pumpInit, h, statusOK]
  · intro p createOk runResult h
    simp [pumpInit, h]
  · intro p ps createOk runResult h hch
    simp [pumpInit, h, hch]
  · intro p ps ch createOk runResult h hch hsr
    simp [pumpInit, h, hch, hsr]
  · intro p ps ch sr runResult h hch hsr
    simp [pumpInit, h, hch, hsr, statusOK]

/-- Witness for `pumpInit_contract`: concrete instances of the
already-initialized no-op, the missing-format rejection, and the
construction-failure path. -/
theorem pumpInit_contract_witness :
    pumpInit ⟨true, none, 0, 0, 0⟩ none true 0 = (statusOK, ⟨true, none, 0, 0, 0⟩) ∧
    pumpInit initialPumpInitState none true 0 = (BAD_VALUE, initialPumpInitState) ∧
    pumpInit initialPumpInitState (some ⟨some 2, none⟩) true 0
      = (BAD_VALUE, { initialPumpInitState with format_channels := 2 }) :=
  ⟨pumpInit_contract.1 ⟨true, none, 0, 0, 0⟩ none true 0 rfl,
   pumpInit_contract.2.1 initialPumpInitState true 0 rfl,
   pumpInit_contract.2.2.2.1 initialPumpInitState ⟨some 2, none⟩ 2 true 0 rfl rfl rfl⟩

/-- C6 counterexample: with exit requested and one buffer (7) still queued,
`read` returns `INVALID_OPERATION` and leaves the queue untouched, whereas
the claim (shutdown requested but FIFO non-empty falls under its
"otherwise") requires it to pop and return the head. -/
theorem pumpRead_exit_nonempty_counterexample :
    pumpRead true [7] = (INVALID_OPERATION, none, [7]) ∧
    (INVALID_OPERATION, (none : Option Nat), ([7] : List Nat))
      ≠ (statusOK, some 7, ([] : List Nat)) := by
  constructor
  · rfl
  · decide

/-- C6 (amended): `read` returns the no-more-data status
(`INVALID_OPERATION`) whenever exit is pending — even when units remain
queued, which it leaves untouched; when exit is not pending it pops and
returns the FIFO head, and iterated reads deliver the queue in exact enqueue
order with no reordering. -/
theorem pumpRead_contract :
    (∀ (q : List Nat), pumpRead true q = (INVALID_OPERATION, none, q)) ∧
    (∀ (b : Nat) (rest : List Nat), pumpRead false (b :: rest) = (statusOK, some b, rest)) ∧
    (∀ (q : List Nat) (n : Nat), pumpReadMany q n = (q.take n, q.drop n)) := by
  refine ⟨fun q => rfl, fun b rest => rfl, ?_⟩
  intro q n
  induction n generalizing q with
  | zero => simp [pumpReadMany]
  | succ n ih =>
    cases q with
    | nil => simp [pumpReadMany, pumpRead]
    | cons b rest => simp [pumpReadMany, pumpRead, ih]

/-- C7: `isAboutToUnderflow` returns false when nothing was ever successfully
queued, when no valid clock transform is stored, or when common time is
unreadable; otherwise (with the transform mapping the last queued PTS to a
common-time deadline) it returns exactly the sign test
`now + threshold - deadline > 0`; in particular it is always false on the
freshly constructed pump. -/
theorem isAboutToUnderflow_contract :
    (∀ (st : RenderState) (threshold : Int) (ctr : Option Int) (xform : Int → Option Int),
      st.last_queued_pts_valid = false → isAboutToUnderflow st threshold ctr xform = false) ∧
    (∀ (st : RenderState) (threshold : Int) (ctr : Option Int) (xform : Int → Option Int),
      st.last_ts_transform_valid = false → isAboutToUnderflow st threshold ctr xform = false) ∧
    (∀ (st : RenderState) (threshold : Int) (xform : Int → Option Int),
      isAboutToUnderflow st threshold none xform = false) ∧
    (∀ (st : RenderState) (threshold tt_now mapped : Int) (xform : Int → Option Int),
      st.last_queued_pts_valid = true → st.last_ts_transform_valid = true →
      xform st.last_queued_pts = some mapped →
      isAboutToUnderflow st threshold (some tt_now) xform
        = decide (tt_now + threshold - mapped > 0)) ∧
    (∀ (threshold : Int) (ctr : Option Int) (xform : Int → Option Int),
      isAboutToUnderflow initialRenderState threshold ctr xform = false) := by
  refine ⟨?_, ?_, ?_, ?_, ?_⟩
  · intro st threshold ctr xform h
    simp [isAboutToUnderflow, h]
  · intro st threshold ctr xform h
    simp [isAboutToUnderflow, h]
  · intro st threshold xform
    simp only [isAboutToUnderflow]
    split <;> rfl
  · intro st threshold tt_now mapped xform h1 h2 hx
    simp [isAboutToUnderflow, h1, h2, hx]
  · intro threshold ctr xform
    simp [isAboutToUnderflow, initialRenderState]

/-- Witness for `isAboutToUnderflow_contract`: with a queued PTS of 100, a
valid transform mapping it to 1000, common time 950 and threshold 100 the
query reports an imminent underflow (950 + 100 - 1000 > 0). -/
theorem isAboutToUnderflow_contract_witness :
    isAboutToUnderflow ⟨true, 100, true⟩ 100 (some 950) (fun _ => some 1000)
      = decide ((950 : Int) + 100 - 1000 > 0) :=
  isAboutToUnderflow_contract.2.2.2.1 ⟨true, 100, true⟩ 100 950 1000
    (fun _ => some 1000) rfl rfl rfl

/-- C9: on a completed unit whose derived metadata differs from the
established metadata — sample rate or channel count for MP3 and AAC, or the
ESDS codec-configuration blob for AAC — the decode engine is torn down
(`cleanupDecoder`) and the new metadata accepted; when nothing differs the
prior metadata object is returned untouched and the engine is left alone. -/
theorem format_change_teardown :
    (∀ (st : MetaState) (m : SubMeta) (bufLen rate ch : Nat),
      st.substream_meta = some m → 4 ≤ bufLen →
      (m.sampleRate ≠ rate ∨ m.channelCount ≠ ch) →
      setupMP3SubstreamMeta st bufLen (some (rate, ch))
        = (true, ⟨some ⟨rate, ch, m.esds⟩, false⟩)) ∧
    (∀ (st : MetaState) (m : SubMeta) (bufLen : Nat),
      st.substream_meta = some m → 4 ≤ bufLen →
      setupMP3SubstreamMeta st bufLen (some (m.sampleRate, m.channelCount)) = (true, st)) ∧
    (∀ (st : MetaState) (m : SubMeta) (aux : List Nat),
      st.substream_meta = some m → 8 ≤ aux.length →
      (m.sampleRate ≠ u32At aux 0 ∨ m.channelCount ≠ u32At aux 4 ∨
        m.esds ≠ (if aux.length > 8 then some (aux.drop 8) else none)) →
      setupAACSubstreamMeta st aux
        = (true, ⟨some ⟨u32At aux 0, u32At aux 4,
                        if aux.length > 8 then some (aux.drop 8) else none⟩, false⟩)) ∧
    (∀ (st : MetaState) (m : SubMeta) (aux : List Nat),
      st.substream_meta = some m → 8 ≤ aux.length →
      m.sampleRate = u32At aux 0 → m.channelCount = u32At aux 4 →
      m.esds = (if aux.length > 8 then some (aux.drop 8) else none) →
      setupAACSubstreamMeta st aux = (true, st)) := by
  refine ⟨?_, ?_, ?_, ?_⟩
  · intro st m bufLen rate ch hm hlen hdiff
    have hlen4 : ¬ bufLen < 4 := by omega
    have hcond : m.channelCount ≠ ch ∨ m.sampleRate ≠ rate := hdiff.symm
    simp [setupMP3SubstreamMeta, hm, hlen4, if_pos hcond]
  · intro st m bufLen hm hlen
    have hlen4 : ¬ bufLen < 4 := by omega
    simp [setupMP3SubstreamMeta, hm, hlen4]
  · intro st m aux hm hlen hdiff
    have hlen8 : ¬ aux.length < 8 := by omega
    simp only [setupAACSubstreamMeta, if_neg hlen8, hm]
    rcases he : m.esds with _ | blob <;>
      rcases hopt : (if aux.length > 8 then some (aux.drop 8) else none) with _ | blob2 <;>
      · simp only [he, hopt] at hdiff ⊢
        split
        · rename_i hsame
          exfalso
          rcases hdiff with h | h | h
          · exact h hsame.2.1
          · exact h hsame.2.2
          · apply h
            first
              | rfl
              | (exfalso; simp_all)
        · rfl
  · intro st m aux hm hlen hr hc he
    have hlen8 : ¬ aux.length < 8 := by omega
    simp only [setupAACSubstreamMeta, if_neg hlen8, hm]
    rw [if_pos]
    refine ⟨?_, hr, hc⟩
    rcases hopt : (if aux.length > 8 then some (aux.drop 8) else none) with _ | blob <;>
      rw [he, hopt] <;> simp

/-- Witness for `format_change_teardown`: an established MP3 stream at
44100 Hz stereo followed by a unit parsed as 32000 Hz stereo forces a
decoder teardown with the updated metadata. -/
theorem format_change_teardown_witness :
    setupMP3SubstreamMeta ⟨some ⟨44100, 2, none⟩, true⟩ 4 (some (32000, 2))
      = (true, ⟨some ⟨32000, 2, none⟩, false⟩) :=
  format_change_teardown.1 ⟨some ⟨44100, 2, none⟩, true⟩ ⟨44100, 2, none⟩ 4 32000 2
    rfl (by decide) (Or.inl (by decide))

/-- C2 (code bug): accepting a RAP fragment-start does NOT clear the
waiting-for-RAP gate — the source never assigns `waiting_for_rap_ = false`
anywhere (its only write is the re-arm to `true` inside
`cleanupBufferInProgress`), even though re-arming it there only makes sense
if a clear existed.  Concretely: `rapMP3Packet` is accepted and completes one
access unit, yet the gate is still armed afterwards, and the following
`nonRapMP3Packet` fragment-start is dropped with no state change at all —
contradicting the claim that after an accepted RAP start no later
fragment-start is dropped merely for lacking the RAP flag. -/
theorem rap_gate_never_cleared :
    (processPayloadStart initialSubstream rapMP3Packet).reassembled = [([42], [])] ∧
    (processPayloadStart initialSubstream rapMP3Packet).waiting_for_rap = true ∧
    processPayloadStart (processPayloadStart initialSubstream rapMP3Packet) nonRapMP3Packet
      = processPayloadStart initialSubstream rapMP3Packet := by
  refine ⟨by decide, by decide, by decide⟩

/-!
Claim theorems: reassembly buffer invariant (C10).
-/

theorem subInv_of_none {st : SubState} (hb : st.buffer = none)
    (ha : st.aux_data_in_progress = []) : SubInv st := by
  refine ⟨fun _ => ha, fun data hdata => ?_⟩
  rw [hb] at hdata
  exact absurd hdata (by simp)

theorem subInv_cleanup (st : SubState) : SubInv (cleanupBufferInProgress st) :=
  subInv_of_none rfl rfl

theorem subInv_completed_of_some {st : SubState} {d : List Nat}
    (h : st.buffer = some d) : SubInv (processCompletedBuffer st) := by
  unfold processCompletedBuffer
  split
  · exact absurd h (by simp_all)
  · exact subInv_cleanup _

set_option maxHeartbeats 1000000 in
theorem subInv_startFillBuffer {st : SubState} (buf : List Nat)
    (trtp_len trtp_header_len : Nat) (hb : st.buffer = none)
    (ha : st.aux_data_in_progress = []) (hlen : trtp_header_len ≤ buf.length) :
    SubInv (startFillBuffer st buf trtp_len trtp_header_len) := by
  simp only [startFillBuffer]
  split_ifs with h1 h2 h3 h4 h5 h6 h7 h8 h9 h10
  all_goals try dsimp only at *
  all_goals try exact subInv_of_none hb ha
  all_goals try exact subInv_completed_of_some rfl
  all_goals
    refine ⟨fun hnone => by simp at hnone, fun data hdata => ?_⟩
  all_goals
    simp only [Option.some.injEq] at hdata
  all_goals subst hdata
  all_goals
    refine ⟨?_, ?_, ?_⟩
  all_goals
    simp only [List.length_take, List.length_drop, List.length_append,
      List.length_nil, List.nil_append, ha] at *
  all_goals omega

theorem subInv_startAuxPhase {st : SubState} (buf : List Nat)
    (trtp_len parse_offset min_length3 : Nat) (hb : st.buffer = none)
    (ha : st.aux_data_in_progress = []) (hlen : min_length3 ≤ buf.length) :
    SubInv (startAuxPhase st buf trtp_len parse_offset min_length3) := by
  simp only [startAuxPhase]
  split_ifs with h1 h2 h3
  · exact subInv_of_none hb ha
  · exact subInv_of_none hb ha
  · exact subInv_startFillBuffer buf trtp_len (min_length3 + 4) (by simp [hb]) rfl (by omega)
  · exact subInv_startFillBuffer buf trtp_len min_length3 (by simp [hb]) (by simp [ha]) hlen

theorem setupSubstreamType_some_fields {st st1 : SubState} {a b : Nat}
    (h : setupSubstreamType st a b = some st1) :
    st1.buffer = st.buffer ∧ st1.aux_data_in_progress = st.aux_data_in_progress := by
  unfold setupSubstreamType at h
  split_ifs at h <;> simp_all <;> subst h <;> simp

theorem setRenderVolume_fields (st : SubState) (v : Nat) :
    (setRenderVolume st v).buffer = st.buffer ∧
    (setRenderVolume st v).aux_data_in_progress = st.aux_data_in_progress := by
  unfold setRenderVolume
  split <;> simp

set_option maxHeartbeats 1000000 in
theorem subInv_processPayloadStartIdle {st : SubState} (buf : List Nat)
    (hb : st.buffer = none) (ha : st.aux_data_in_progress = []) :
    SubInv (processPayloadStartIdle st buf) := by
  simp only [processPayloadStartIdle]
  split_ifs with h1 h2 h3 h4 h5 h6 h7 h8 h9
  all_goals try exact subInv_of_none hb ha
  split
  · exact subInv_of_none hb ha
  rename_i st1 hsetup
  obtain ⟨f1, f2⟩ := setupSubstreamType_some_fields hsetup
  obtain ⟨g1, g2⟩ := setRenderVolume_fields st1 (byteAt buf _)
  split_ifs with k1
  · exact subInv_of_none (by rw [g1, f1, hb]) (by rw [g2, f2, ha])
  · apply subInv_startAuxPhase _ _ _ _ (by rw [g1, f1, hb]) (by rw [g2, f2, ha])
    omega

theorem subInv_processPayloadStart {st : SubState} (buf : List Nat) (h : SubInv st) :
    SubInv (processPayloadStart st buf) := by
  unfold processPayloadStart
  split_ifs with h1 h2
  · exact h
  · exact subInv_processPayloadStartIdle buf rfl rfl
  · exact subInv_processPayloadStartIdle buf (by simp_all)
      (h.1 (by simp_all))

set_option maxHeartbeats 1000000 in
theorem subInv_contFillBuffer {st : SubState} (data buf : List Nat)
    (hb : st.buffer = some data) (hlen : data.length = st.buffer_filled)
    (hfill : st.buffer_filled < st.expected_buffer_size)
    (haux : st.aux_data_in_progress.length ≤ st.aux_data_expected_size) :
    SubInv (contFillBuffer st data buf) := by
  simp only [contFillBuffer]
  split_ifs with h1 h2 h3 h4
  all_goals try exact subInv_cleanup st
  all_goals try exact subInv_completed_of_some (d := data ++ buf) rfl
  all_goals try exact subInv_completed_of_some hb
  all_goals refine ⟨fun hnone => by simp_all, fun d hd => ?_⟩
  all_goals simp only [Option.some.injEq, hb] at hd
  all_goals subst hd
  all_goals refine ⟨?_, ?_, ?_⟩
  all_goals simp only [List.length_append] at *
  all_goals omega

theorem subInv_processPayloadCont {st : SubState} (buf : List Nat) (h : SubInv st) :
    SubInv (processPayloadCont st buf) := by
  simp only [processPayloadCont]
  split_ifs with h1 h2 h3
  · exact h
  · split
    · exact h
    · rename_i data hdata
      obtain ⟨hlen, hfill, haux⟩ := h.2 data hdata
      refine ⟨fun hnone => absurd (show st.buffer = none from hnone) (by simp [hdata]),
        fun d hd => ?_⟩
      have hd2 : st.buffer = some d := hd
      rw [hdata, Option.some.injEq] at hd2
      subst hd2
      refine ⟨hlen, hfill, ?_⟩
      show (st.aux_data_in_progress ++ _).length ≤ st.aux_data_expected_size
      simp only [List.length_append, List.length_take]
      omega
  · split
    · exact h
    · rename_i data hdata
      obtain ⟨hlen, hfill, haux⟩ := h.2 data hdata
      refine subInv_contFillBuffer _ _ ?_ ?_ ?_ ?_
      · exact hdata
      · exact hlen
      · exact hfill
      · show (st.aux_data_in_progress ++ _).length ≤ st.aux_data_expected_size
        simp only [List.length_append, List.length_take]
        omega
  · split
    · exact h
    · rename_i data hdata
      obtain ⟨hlen, hfill, haux⟩ := h.2 data hdata
      exact subInv_contFillBuffer data buf hdata hlen hfill haux

theorem subInv_shutdown (st : SubState) : SubInv (shutdownSubstream st) :=
  subInv_cleanup _

/-- C10: the reassembly invariant — empty aux accumulator while idle; while a
buffer is in progress the buffer content matches `buffer_filled_`, the fill
is strictly below the declared payload size, and the accumulated aux bytes
never exceed the declared aux size — holds initially and is preserved by
`processPayloadStart`, `processPayloadCont` and `shutdown`; consequently the
two `CHECK` assertions guarding continuation processing (lines 369 and 381)
can never fail: whenever a buffer is in progress the checked inequalities
hold. -/
theorem reassembly_invariant_holds :
    SubInv initialSubstream ∧
    (∀ (st : SubState) (buf : List Nat), SubInv st → SubInv (processPayloadStart st buf)) ∧
    (∀ (st : SubState) (buf : List Nat), SubInv st → SubInv (processPayloadCont st buf)) ∧
    (∀ st : SubState, SubInv st → SubInv (shutdownSubstream st)) ∧
    (∀ (st : SubState) (data : List Nat), SubInv st → st.buffer = some data →
      st.aux_data_in_progress.length ≤ st.aux_data_expected_size ∧
      st.buffer_filled < st.expected_buffer_size) := by
  refine ⟨subInv_of_none rfl rfl,
    fun st buf h => subInv_processPayloadStart buf h,
    fun st buf h => subInv_processPayloadCont buf h,
    fun st h => subInv_shutdown st,
    fun st data h hdata => ?_⟩
  obtain ⟨_, h2, h3⟩ := h.2 data hdata
  exact ⟨h3, h2⟩

/-- Witness for `reassembly_invariant_holds`: the invariant holds after a
fragment-start that leaves a buffer in progress (declared payload 3 bytes,
one byte delivered). -/
theorem reassembly_invariant_holds_witness :
    SubInv (processPayloadStart initialSubstream [1, 16, 0, 0, 0, 12, 3, 8, 200, 42]) :=
  reassembly_invariant_holds.2.1 initialSubstream [1, 16, 0, 0, 0, 12, 3, 8, 200, 42]
    reassembly_invariant_holds.1

/-!
Claim theorems: single- and multi-fragment reassembly (C3, C4), built on a
characterization of the fill phase and of continuation processing over the
accumulation states.
-/

theorem byteAt_drop (l : List Nat) (n i : Nat) : byteAt (l.drop n) i = byteAt l (n + i) := by
  induction n generalizing l with
  | zero => simp
  | succ n ih =>
    cases l with
    | nil => simp [byteAt]
    | cons a t =>
      rw [List.drop_succ_cons, ih t, Nat.succ_add]
      rfl

theorem u32At_drop (l : List Nat) (n i : Nat) : u32At (l.drop n) i = u32At l (n + i) := by
  simp [u32At, byteAt_drop, Nat.add_assoc]

theorem u32At_encode (n : Nat) (rest : List Nat) (h : n < 2 ^ 32) :
    u32At (encodeU32 n ++ rest) 0 = n := by
  norm_num [u32At, encodeU32, byteAt]
  omega

set_option maxHeartbeats 1000000 in
theorem startFillBuffer_spec (st : SubState) (pre auxAll payAll : List Nat) (k : Nat)
    (hb : st.buffer = none) (ha : st.aux_data_in_progress = [])
    (hexp : st.aux_data_expected_size = auxAll.length)
    (hk : k ≤ auxAll.length + payAll.length) (hpay : 0 < payAll.length) :
    startFillBuffer st (pre ++ (auxAll ++ payAll).take k)
        (pre.length + auxAll.length + payAll.length) pre.length
      = if k < auxAll.length + payAll.length
        then { st with
                 buffer := some (payAll.take (k - auxAll.length))
                 expected_buffer_size := payAll.length
                 buffer_filled := k - auxAll.length
                 aux_data_in_progress := auxAll.take k }
        else cleanupBufferInProgress
               { st with reassembled := st.reassembled ++ [(payAll, auxAll)] } := by
  have hD : ((auxAll ++ payAll).take k).length = k := by
    simp [List.length_take, List.length_append]
    omega
  have hamt : (pre ++ (auxAll ++ payAll).take k).length = pre.length + k := by
    simp [hD]
  have hdropPre : (pre ++ (auxAll ++ payAll).take k).drop pre.length
      = (auxAll ++ payAll).take k := List.drop_left _ _
  have hE : pre.length + auxAll.length + payAll.length - pre.length - auxAll.length
      = payAll.length := by omega
  have hAux : List.take (auxAll.length ⊓ k) (List.take k (auxAll ++ payAll))
      = auxAll.take k := by
    rcases Nat.le_total k auxAll.length with hka | hka
    · rw [show auxAll.length ⊓ k = k by omega, List.take_take, Nat.min_self,
        List.take_append_of_le_length hka]
    · rw [show auxAll.length ⊓ k = auxAll.length by omega, List.take_take,
        show min auxAll.length k = auxAll.length by omega,
        List.take_append_of_le_length le_rfl, List.take_length,
        List.take_of_length_le hka]
  have hBuf : List.take (payAll.length ⊓ (k - auxAll.length ⊓ k))
        (List.drop (auxAll.length ⊓ k) (List.take k (auxAll ++ payAll)))
      = payAll.take (k - auxAll.length) := by
    rcases Nat.le_total k auxAll.length with hka | hka
    · rw [show auxAll.length ⊓ k = k by omega]
      simp [List.drop_take, show k - auxAll.length = 0 by omega]
    · rw [show auxAll.length ⊓ k = auxAll.length by omega, List.drop_take,
        List.drop_left, List.take_take]
      congr 1
      omega
  have hFill : k - auxAll.length ⊓ k = k - auxAll.length := by omega
  simp only [startFillBuffer, hamt, hdropPre, hexp, hD, ha, hE]
  rw [if_neg (by omega), if_neg (by omega), if_neg (by omega)]
  simp only [List.nil_append, hAux, hBuf]
  simp only [hFill]
  rcases Nat.lt_or_ge (k - auxAll.length) payAll.length with hcomp | hcomp
  · rw [if_neg (by omega), if_pos (by omega)]
  · rw [if_pos (by omega), if_neg (by omega)]
    simp only [processCompletedBuffer]
    rw [List.take_of_length_le (by omega), List.take_of_length_le (by omega)]
    rfl

theorem setRenderVolume_eq (st : SubState) (v : Nat) :
    setRenderVolume st v = { st with pump_volume := v } := by
  unfold setRenderVolume
  split
  · rename_i h
    rw [h]
  · rfl


theorem byteAt_append_right (l m : List Nat) (i : Nat) :
    byteAt (l ++ m) (l.length + i) = byteAt m i := by
  induction l with
  | nil => simp
  | cons a t ih =>
    simpa [byteAt, List.getD_cons_succ, Nat.succ_add] using ih

theorem byteAt_append_at (l m : List Nat) (n i j : Nat) (hl : l.length = n)
    (hj : j = n + i) : byteAt (l ++ m) j = byteAt m i := by
  subst hl hj
  exact byteAt_append_right l m i

theorem u32At_append_at (l m : List Nat) (n i j : Nat) (hl : l.length = n)
    (hj : j = n + i) : u32At (l ++ m) j = u32At m i := by
  subst hl hj
  simp only [u32At]
  rw [show l.length + i + 1 = l.length + (i + 1) from by omega,
    show l.length + i + 2 = l.length + (i + 2) from by omega,
    show l.length + i + 3 = l.length + (i + 3) from by omega,
    byteAt_append_right, byteAt_append_right, byteAt_append_right, byteAt_append_right]

theorem u32At_cons (a : Nat) (l : List Nat) (i : Nat) :
    u32At (a :: l) (i + 1) = u32At l i := by
  have h : ∀ j : Nat, byteAt (a :: l) (i + 1 + j) = byteAt l (i + j) := by
    intro j
    have : i + 1 + j = (i + j) + 1 := by omega
    rw [this]
    rfl
  simp only [u32At]
  rw [show i + 1 + 1 = i + 1 + 1 from rfl]
  rw [h 0, h 1, h 2, h 3]
  norm_num

set_option maxHeartbeats 4000000 in
theorem processPayloadStart_mk (tsv tf auxp : Bool) (tsHigh volume codec : Nat)
    (tfBytes auxAll payAll : List Nat) (k : Nat)
    (htf : tfBytes.length = 24) (hcodec : codec = 3 ∨ codec = 4)
    (hpay : 0 < payAll.length) (hk : k ≤ auxAll.length + payAll.length)
    (hauxe : auxp = false → auxAll = [])
    (hfit : audioHeaderLen tsv tf auxp + auxAll.length + payAll.length < 2 ^ 32) :
    processPayloadStart initialSubstream
        (mkAudioPacket tsv tf tsHigh tfBytes codec volume auxp auxAll.length
          (audioHeaderLen tsv tf auxp + auxAll.length + payAll.length)
          ((auxAll ++ payAll).take k))
      = if k < auxAll.length + payAll.length
        then accumState (parsedBase codec volume) auxAll payAll k
        else cleanupBufferInProgress
               { parsedBase codec volume with reassembled := [(payAll, auxAll)] } := by
  set T : List Nat := (auxAll ++ payAll).take k with hT
  set L : Nat := audioHeaderLen tsv tf auxp + auxAll.length + payAll.length with hL
  set c1 : Nat := 16 + (if tsv then 1 else 0) + (if tf then 2 else 0) with hc1
  set P1 : List Nat :=
    [1, c1] ++ encodeU32 L ++ (if tsv then encodeU32 tsHigh else [])
      ++ (if tf then tfBytes else []) with hP1
  set fl : Nat := if auxp then 24 else 8 with hfl
  set AUXF : List Nat := if auxp then encodeU32 auxAll.length else [] with hAUXF
  set pre : List Nat := P1 ++ ([codec, fl, volume] ++ AUXF) with hpre
  have hpacket : mkAudioPacket tsv tf tsHigh tfBytes codec volume auxp auxAll.length L T
      = pre ++ T := by
    simp [mkAudioPacket, hpre, hP1, List.append_assoc]
  have hP1len : P1.length = (if tsv then 10 else 6) + (if tf then 24 else 0) := by
    rw [hP1]
    cases tsv <;> cases tf <;> simp [encodeU32, htf]
  have hprelen : pre.length = audioHeaderLen tsv tf auxp := by
    rw [hpre, hAUXF]
    cases tsv <;> cases tf <;> cases auxp <;>
      simp [audioHeaderLen, encodeU32, htf, hP1len]
  have htake : T.length = k := by
    rw [hT]
    simp [List.length_take, List.length_append]
    omega
  have hamt : (pre ++ T).length = audioHeaderLen tsv tf auxp + k := by
    simp [htake, hprelen]
  have hhl9 : 9 ≤ audioHeaderLen tsv tf auxp := by
    unfold audioHeaderLen
    split_ifs <;> omega
  have hsplit : pre ++ T = P1 ++ ([codec, fl, volume] ++ (AUXF ++ T)) := by
    rw [hpre]
    simp [List.append_assoc]
  -- header byte facts
  have e0 : byteAt (pre ++ T) 0 = 1 := by rw [hpre, hP1]; rfl
  have e1 : byteAt (pre ++ T) 1 = c1 := by rw [hpre, hP1]; rfl
  have eht : headerType (pre ++ T) = 1 := by
    rw [headerType, e1, hc1]
    cases tsv <;> cases tf <;> rfl
  have ets : tsValidFlag (pre ++ T) = tsv := by
    rw [tsValidFlag, e1, hc1]
    cases tsv <;> cases tf <;> rfl
  have etf : tfPresentFlag (pre ++ T) = tf := by
    rw [tfPresentFlag, e1, hc1]
    cases tsv <;> cases tf <;> rfl
  have eL : u32At (pre ++ T) 2 = L := by
    have h2 : ([1, c1] : List Nat).length = 2 := rfl
    rw [hpre, hP1]
    rw [show ([1, c1] ++ encodeU32 L ++ (if tsv then encodeU32 tsHigh else [])
          ++ (if tf then tfBytes else [])) ++ ([codec, fl, volume] ++ AUXF) ++ T
        = [1, c1] ++ (encodeU32 L ++ ((if tsv then encodeU32 tsHigh else [])
          ++ ((if tf then tfBytes else []) ++ (([codec, fl, volume] ++ AUXF) ++ T))))
        from by simp [List.append_assoc]]
    rw [u32At_append_at _ _ 2 0 2 h2 rfl]
    exact u32At_encode L _ (by omega)
  have eml1 : minLength1 (pre ++ T) = if tsv then 10 else 6 := by
    rw [minLength1, ets]
  have eml2 : minLength2 (pre ++ T) = (if tsv then 10 else 6) + (if tf then 24 else 0) := by
    rw [minLength2, etf, eml1]
    cases tf <;> simp
  have eml3 : minLength3 (pre ++ T) = P1.length + 3 := by
    rw [minLength3, eml2, hP1len]
  have epo : parseOffset (pre ++ T) = P1.length := by
    rw [parseOffset, ets, etf, hP1len]
  have ecodec : byteAt (pre ++ T) (parseOffset (pre ++ T)) = codec := by
    rw [epo, hsplit, byteAt_append_at _ _ P1.length 0 P1.length rfl (by omega)]
    rfl
  have eflags : byteAt (pre ++ T) (parseOffset (pre ++ T) + 1) = fl := by
    rw [epo, hsplit, byteAt_append_at _ _ P1.length 1 (P1.length + 1) rfl rfl]
    rfl
  have evol : byteAt (pre ++ T) (parseOffset (pre ++ T) + 2) = volume := by
    rw [epo, hsplit, byteAt_append_at _ _ P1.length 2 (P1.length + 2) rfl rfl]
    rfl
  have ehlen_le : audioHeaderLen tsv tf auxp = P1.length + 3 + (if auxp then 4 else 0) := by
    rw [hP1len]
    unfold audioHeaderLen
    cases tsv <;> cases tf <;> cases auxp <;> simp
  -- reduce the entry point and the parse chain
  rw [hpacket]
  rw [show processPayloadStart initialSubstream (pre ++ T)
      = processPayloadStartIdle initialSubstream (pre ++ T) from by
    simp [processPayloadStart, initialSubstream]]
  rw [processPayloadStartIdle]
  rw [if_neg (by rw [hamt]; omega)]
  rw [if_neg (by rw [e0]; omega)]
  rw [if_neg (by rw [eht]; omega)]
  rw [if_neg (by simp [initialSubstream])]
  rw [if_neg (by rw [ets, eml1, hamt]; cases tsv <;> cases tf <;> cases auxp <;> simp [audioHeaderLen] <;> omega)]
  rw [if_neg (by rw [eL, eml1, hL]; unfold audioHeaderLen; cases tsv <;> cases tf <;> cases auxp <;> simp <;> omega)]
  rw [if_neg (by rw [etf, eml2, hamt]; cases tsv <;> cases tf <;> cases auxp <;> simp [audioHeaderLen] <;> omega)]
  rw [if_neg (by rw [eL, eml3, hL, ehlen_le]; cases auxp <;> simp <;> omega)]
  rw [if_neg (by rw [eml3, hamt, ehlen_le]; cases auxp <;> simp <;> omega)]
  rw [eht, ecodec]
  rw [show setupSubstreamType initialSubstream 1 codec
      = some { initialSubstream with
                 substream_type := 1
                 codec_type := codec
                 substream_details_known := true } from by
    simp [setupSubstreamType, initialSubstream, hcodec]]
  simp only [evol, setRenderVolume_eq]
  rw [if_neg (by
    rw [eflags, hfl]
    cases auxp <;> simp)]
  rw [eL, epo, eml3]
  have eflags2 : byteAt (pre ++ T) (P1.length + 1) = fl := by rw [← epo]; exact eflags
  have eaux : auxp = true → u32At (pre ++ T) (P1.length + 3) = auxAll.length := by
    intro hax
    rw [hsplit, u32At_append_at _ _ P1.length 3 (P1.length + 3) rfl rfl]
    rw [show ([codec, fl, volume] : List Nat) ++ (AUXF ++ T)
        = codec :: fl :: volume :: (AUXF ++ T) from by simp]
    rw [show (3 : Nat) = 2 + 1 from rfl, u32At_cons,
      show (2 : Nat) = 1 + 1 from rfl, u32At_cons,
      show (1 : Nat) = 0 + 1 from rfl, u32At_cons]
    rw [hAUXF, if_pos hax]
    exact u32At_encode _ _ (by omega)
  cases hax : auxp with
  | false =>
    have hA0 : auxAll = [] := hauxe hax
    simp only [startAuxPhase]
    rw [eflags2, hfl, hax]
    rw [if_neg (by norm_num)]
    rw [hT, show L = pre.length + auxAll.length + payAll.length from by rw [hL, hprelen],
      show P1.length + 3 = pre.length from by rw [hprelen, ehlen_le, hax]; simp]
    refine Eq.trans (startFillBuffer_spec _ pre auxAll payAll k rfl rfl ?_ hk hpay) ?_
    · rw [hA0]
      rfl
    · rw [hA0]
      simp [accumState, parsedBase, initialSubstream, cleanupBufferInProgress]
  | true =>
    simp only [startAuxPhase]
    rw [eflags2, hfl, hax]
    rw [if_pos (by norm_num)]
    rw [if_neg (by rw [hL, ehlen_le, hax]; simp; all_goals omega),
      if_neg (by rw [hamt, ehlen_le, hax]; simp; all_goals omega)]
    rw [eaux hax]
    rw [hT, show L = pre.length + auxAll.length + payAll.length from by rw [hL, hprelen],
      show P1.length + 3 + 4 = pre.length from by rw [hprelen, ehlen_le, hax]; simp]
    refine Eq.trans (startFillBuffer_spec _ pre auxAll payAll k rfl rfl rfl hk hpay) ?_
    simp [accumState, parsedBase, initialSubstream, cleanupBufferInProgress]

theorem subState_eta (st : SubState) (X : Option (List Nat)) (Y Z : Nat)
    (hb : st.buffer = X) (hf : st.buffer_filled = Y)
    (he : st.expected_buffer_size = Z) :
    st = { st with buffer := X, buffer_filled := Y, expected_buffer_size := Z } := by
  cases st
  simp_all

set_option maxHeartbeats 1000000 in
theorem contFillBuffer_spec (st : SubState) (payAll : List Nat) (f n : Nat)
    (hbuf : st.buffer = some (payAll.take f))
    (hexp : st.expected_buffer_size = payAll.length)
    (hfill : st.buffer_filled = f)
    (hf : f < payAll.length)
    (hn : f + n ≤ payAll.length) :
    contFillBuffer st (payAll.take f) ((payAll.drop f).take n)
      = if f + n < payAll.length
        then { st with buffer := some (payAll.take (f + n)), buffer_filled := f + n }
        else cleanupBufferInProgress
               { st with reassembled := st.reassembled ++ [(payAll, st.aux_data_in_progress)] } := by
  have hblen : ((payAll.drop f).take n).length = n := by
    simp [List.length_take, List.length_drop]
    omega
  have hjoin : payAll.take f ++ (payAll.drop f).take n = payAll.take (f + n) :=
    (List.take_add payAll f n).symm
  simp only [contFillBuffer, hblen, hexp, hfill]
  rw [if_neg (by omega)]
  rcases Nat.eq_zero_or_pos n with hn0 | hn0
  · subst hn0
    have h00 : ¬ (0 : Nat) > 0 := by omega
    simp only [if_neg h00, hfill, hexp]
    rw [if_neg (by omega), if_pos (by omega), Nat.add_zero]
    exact subState_eta st _ _ _ hbuf hfill hexp
  · simp only [if_pos hn0, hjoin]
    rcases Nat.lt_or_ge (f + n) payAll.length with hc | hc
    · rw [if_neg (by simp; omega), if_pos hc]
    · rw [if_pos (by simp; omega), if_neg (by omega)]
      simp only [processCompletedBuffer]
      rw [List.take_of_length_le (by omega)]
      rfl


set_option maxHeartbeats 2000000 in
theorem processPayloadCont_accum (base : SubState) (auxAll payAll c : List Nat) (k : Nat)
    (hstatus : base.status = 0)
    (hpay : 0 < payAll.length)
    (hk : k < auxAll.length + payAll.length)
    (hck : k + c.length ≤ auxAll.length + payAll.length)
    (hc : c = ((auxAll ++ payAll).drop k).take c.length) :
    processPayloadCont (accumState base auxAll payAll k) c
      = if k + c.length < auxAll.length + payAll.length
        then accumState base auxAll payAll (k + c.length)
        else cleanupBufferInProgress
               { base with reassembled := base.reassembled ++ [(payAll, auxAll)] } := by
  simp only [processPayloadCont, accumState]
  rw [if_neg (by simp [hstatus])]
  rcases Nat.lt_or_ge k auxAll.length with hka | hka
  · -- still filling the aux accumulator
    have h1 : (auxAll.take k).length = k := by
      simp [List.length_take]
      omega
    rw [h1, if_pos (by omega)]
    have hdk : (auxAll ++ payAll).drop k = auxAll.drop k ++ payAll := by
      rw [List.drop_append_eq_append_drop, show k - auxAll.length = 0 from by omega,
        List.drop_zero]
    have hc3 : c = (auxAll.drop k ++ payAll).take c.length := by
      conv_lhs => rw [hc]
      rw [hdk]
    have hXlen : (auxAll.drop k).length = auxAll.length - k := by
      simp [List.length_drop]
    rcases le_or_lt c.length (auxAll.length - k) with hcs | hcs
    · -- the whole chunk goes to the aux accumulator
      rw [show (auxAll.length - k) ⊓ c.length = c.length from by omega,
        List.take_of_length_le le_rfl]
      have haux2 : auxAll.take k ++ c = auxAll.take (k + c.length) := by
        conv_lhs => rw [hc3]
        rw [List.take_append_of_le_length (by omega)]
        exact (List.take_add auxAll k c.length).symm
      simp only [List.drop_length, List.length_nil]
      rw [if_pos trivial, if_pos (by omega)]
      simp only [accumState, haux2, show k - auxAll.length = 0 from by omega,
        show k + c.length - auxAll.length = 0 from by omega]
    · -- the chunk fills the aux accumulator and spills into the payload buffer
      rw [show (auxAll.length - k) ⊓ c.length = auxAll.length - k from by omega]
      have haux2 : auxAll.take k ++ c.take (auxAll.length - k) = auxAll := by
        conv_lhs => rw [hc3]
        rw [List.take_take, show (auxAll.length - k) ⊓ c.length = auxAll.length - k from by omega,
          List.take_append_of_le_length (by omega),
          show (auxAll.drop k).take (auxAll.length - k) = auxAll.drop k from
            List.take_of_length_le (by omega)]
        exact List.take_append_drop k auxAll
      rw [haux2]
      have hbuf2 : c.drop (auxAll.length - k)
          = (payAll.drop 0).take (c.length - (auxAll.length - k)) := by
        conv_lhs => rw [hc3]
        rw [List.drop_take]
        congr 1
        rw [List.drop_append_eq_append_drop,
          show (auxAll.drop k).drop (auxAll.length - k) = [] from
            List.drop_eq_nil_of_le (by omega),
          show auxAll.length - k - (auxAll.drop k).length = 0 from by omega,
          List.nil_append]
      rw [hbuf2]
      rw [show ((payAll.drop 0).take (c.length - (auxAll.length - k))).length
          = c.length - (auxAll.length - k) from by
        simp [List.length_take, List.length_drop]
        omega]
      rw [if_neg (by omega)]
      rw [show k - auxAll.length = 0 from by omega]
      have hspec := contFillBuffer_spec
        { base with
            buffer := some (payAll.take 0)
            expected_buffer_size := payAll.length
            buffer_filled := 0
            aux_data_in_progress := auxAll
            aux_data_expected_size := auxAll.length }
        payAll 0 (c.length - (auxAll.length - k)) rfl rfl rfl hpay (by omega)
      rw [hspec]
      split_ifs with hq1 hq2
      · simp only [accumState]
        rw [show k + c.length - auxAll.length = 0 + (c.length - (auxAll.length - k)) from by
            omega,
          List.take_of_length_le (show auxAll.length ≤ k + c.length from by omega)]
      · omega
      · omega
      · rfl
  · -- aux accumulator already full
    rw [List.take_of_length_le hka]
    rw [if_neg (by omega)]
    have hc4 : c = (payAll.drop (k - auxAll.length)).take c.length := by
      conv_lhs => rw [hc]
      rw [List.drop_append_eq_append_drop,
        show auxAll.drop k = [] from List.drop_eq_nil_of_le (by omega),
        List.nil_append]
    conv_lhs => rw [hc4]
    have hspec := contFillBuffer_spec
      { base with
          buffer := some (payAll.take (k - auxAll.length))
          expected_buffer_size := payAll.length
          buffer_filled := k - auxAll.length
          aux_data_in_progress := auxAll
          aux_data_expected_size := auxAll.length }
      payAll (k - auxAll.length) c.length rfl rfl rfl (by omega) (by omega)
    rw [hspec]
    split_ifs with hq1 hq2
    · simp only [accumState]
      rw [show k + c.length - auxAll.length = k - auxAll.length + c.length from by omega,
        List.take_of_length_le (show auxAll.length ≤ k + c.length from by omega)]
    · omega
    · omega
    · rfl

theorem processPayloadCont_buffer_none (st : SubState) (c : List Nat)
    (hb : st.buffer = none) : processPayloadCont st c = st := by
  simp only [processPayloadCont, hb]
  split <;> rfl

theorem foldl_cont_buffer_none (st : SubState) (chunks : List (List Nat))
    (hb : st.buffer = none) : List.foldl processPayloadCont st chunks = st := by
  induction chunks with
  | nil => rfl
  | cons c rest ih =>
    rw [List.foldl_cons, processPayloadCont_buffer_none st c hb, ih]

theorem foldl_cont_accum (base : SubState) (auxAll payAll : List Nat)
    (hstatus : base.status = 0) (hpay : 0 < payAll.length) :
    ∀ (chunks : List (List Nat)) (k : Nat), k < auxAll.length + payAll.length →
      chunks.flatten = (auxAll ++ payAll).drop k →
      List.foldl processPayloadCont (accumState base auxAll payAll k) chunks
        = cleanupBufferInProgress
            { base with reassembled := base.reassembled ++ [(payAll, auxAll)] } := by
  intro chunks
  induction chunks with
  | nil =>
    intro k hk hj
    exfalso
    have hlen := congrArg List.length hj
    simp [List.length_drop, List.length_append] at hlen
    omega
  | cons c rest ih =>
    intro k hk hj
    rw [List.flatten_cons] at hj
    have hjlen := congrArg List.length hj
    simp only [List.length_append, List.length_drop] at hjlen
    have hclen : k + c.length ≤ auxAll.length + payAll.length := by
      simp [List.length_append] at hjlen
      omega
    have hcc : c = ((auxAll ++ payAll).drop k).take c.length := by
      rw [← hj]
      exact (List.take_left c _).symm
    rw [List.foldl_cons, processPayloadCont_accum base auxAll payAll c k hstatus hpay hk hclen hcc]
    split_ifs with h2
    · refine ih (k + c.length) h2 ?_
      have hrest : rest.flatten = ((auxAll ++ payAll).drop k).drop c.length := by
        rw [← hj]
        exact (List.drop_left c _).symm
      rw [hrest, List.drop_drop]
    · exact foldl_cont_buffer_none _ rest rfl

/-- C3: for every valid single-fragment audio payload with self-consistent
header fields — version 1, audio kind, supported codec (MP3 = 3 or AAC = 4),
declared total length consistent with the delivered buffer length (the whole
TRTP payload arrives in one fragment), a declared aux length matching the aux
bytes, a non-empty payload, and the random-access-point flag set (a fresh
substream is always waiting for a RAP) — fragment-start processing yields
exactly one completed access unit, and its byte length equals the declared
total length minus the header overhead minus the declared aux-data length. -/
theorem single_fragment_reassembly (tsv tf auxp : Bool) (tsHigh volume codec : Nat)
    (tfBytes auxAll payAll : List Nat)
    (htf : tfBytes.length = 24) (hcodec : codec = 3 ∨ codec = 4)
    (hpay : 0 < payAll.length)
    (hauxe : auxp = false → auxAll = [])
    (hfit : audioHeaderLen tsv tf auxp + auxAll.length + payAll.length < 2 ^ 32) :
    (processPayloadStart initialSubstream
        (mkAudioPacket tsv tf tsHigh tfBytes codec volume auxp auxAll.length
          (audioHeaderLen tsv tf auxp + auxAll.length + payAll.length)
          (auxAll ++ payAll))).reassembled
      = [(payAll, auxAll)] ∧
    payAll.length
      = (audioHeaderLen tsv tf auxp + auxAll.length + payAll.length)
        - audioHeaderLen tsv tf auxp - auxAll.length := by
  have h := processPayloadStart_mk tsv tf auxp tsHigh volume codec tfBytes auxAll payAll
    (auxAll.length + payAll.length) htf hcodec hpay le_rfl hauxe hfit
  rw [List.take_of_length_le (by simp)] at h
  rw [h, if_neg (by omega)]
  constructor
  · simp [cleanupBufferInProgress, parsedBase, initialSubstream]
  · omega

/-- Witness for `single_fragment_reassembly`: an MP3 payload of 2 bytes with
a 4-byte timestamp extension and a 2-byte aux blob (header overhead 17,
declared total 21) reassembles into the single unit of length 2 = 21-17-2. -/
theorem single_fragment_reassembly_witness :
    (processPayloadStart initialSubstream
        (mkAudioPacket true false 7 [] 3 99 true 2 21 [10, 11, 20, 21])).reassembled
      = [([20, 21], [10, 11])] ∧
    (2 : Nat) = 21 - 17 - 2 :=
  ⟨by
    have h := (single_fragment_reassembly true false true 7 99 3 (List.replicate 24 0)
      [10, 11] [20, 21] (by decide) (Or.inl rfl) (by decide) (by intro h; cases h)
      (by decide)).1
    simpa using h,
   by decide⟩

/-- C4: delivering the trailing bytes of one audio access unit partly in the
fragment-start packet and partly in follow-up continuations — with the
fragment byte totals exactly matching the declared aux and payload sizes —
completes an access unit whose bytes and aux bytes are identical to those
produced when the same header and the whole logical payload arrive as a
single fragment (and both equal the logical (payload, aux) pair). -/
theorem multi_fragment_refinement (tsv tf auxp : Bool) (tsHigh volume codec : Nat)
    (tfBytes auxAll payAll startData : List Nat) (chunks : List (List Nat))
    (htf : tfBytes.length = 24) (hcodec : codec = 3 ∨ codec = 4)
    (hpay : 0 < payAll.length)
    (hauxe : auxp = false → auxAll = [])
    (hfit : audioHeaderLen tsv tf auxp + auxAll.length + payAll.length < 2 ^ 32)
    (hjoin : startData ++ chunks.flatten = auxAll ++ payAll) :
    (List.foldl processPayloadCont
        (processPayloadStart initialSubstream
          (mkAudioPacket tsv tf tsHigh tfBytes codec volume auxp auxAll.length
            (audioHeaderLen tsv tf auxp + auxAll.length + payAll.length)
            startData))
        chunks).reassembled
      = (processPayloadStart initialSubstream
          (mkAudioPacket tsv tf tsHigh tfBytes codec volume auxp auxAll.length
            (audioHeaderLen tsv tf auxp + auxAll.length + payAll.length)
            (auxAll ++ payAll))).reassembled ∧
    (List.foldl processPayloadCont
        (processPayloadStart initialSubstream
          (mkAudioPacket tsv tf tsHigh tfBytes codec volume auxp auxAll.length
            (audioHeaderLen tsv tf auxp + auxAll.length + payAll.length)
            startData))
        chunks).reassembled
      = [(payAll, auxAll)] := by
  have hsd : startData = (auxAll ++ payAll).take startData.length := by
    rw [← hjoin]
    exact (List.take_left startData _).symm
  have hsdlen : startData.length ≤ auxAll.length + payAll.length := by
    have := congrArg List.length hjoin
    simp [List.length_append] at this
    omega
  have hsingle := (single_fragment_reassembly tsv tf auxp tsHigh volume codec tfBytes
    auxAll payAll htf hcodec hpay hauxe hfit).1
  have hstart := processPayloadStart_mk tsv tf auxp tsHigh volume codec tfBytes
    auxAll payAll startData.length htf hcodec hpay hsdlen hauxe hfit
  rw [← hsd] at hstart
  rw [hstart]
  rcases Nat.lt_or_ge startData.length (auxAll.length + payAll.length) with hlt | hge
  · rw [if_pos hlt]
    have hflat : chunks.flatten = (auxAll ++ payAll).drop startData.length := by
      rw [← hjoin]
      exact (List.drop_left startData _).symm
    rw [foldl_cont_accum (parsedBase codec volume) auxAll payAll rfl hpay chunks
      startData.length hlt hflat]
    constructor
    · rw [hsingle]
      simp [cleanupBufferInProgress, parsedBase, initialSubstream]
    · simp [cleanupBufferInProgress, parsedBase, initialSubstream]
  · rw [if_neg (by omega)]
    have hlen2 : startData.length + chunks.flatten.length
        = auxAll.length + payAll.length := by
      have h := congrArg List.length hjoin
      simpa [List.length_append] using h
    have hflat : chunks.flatten = [] :=
      List.length_eq_zero.mp (by omega)
    rw [foldl_cont_buffer_none _ chunks rfl]
    constructor
    · rw [hsingle]
      simp [cleanupBufferInProgress, parsedBase, initialSubstream]
    · simp [cleanupBufferInProgress, parsedBase, initialSubstream]

/-- Witness for `multi_fragment_refinement`: aux [10, 11] and payload
[20, 21] delivered as start fragment carrying [10] followed by continuations
[11, 20] and [21] produce the same single reassembled unit as one fragment
carrying all four bytes. -/
theorem multi_fragment_refinement_witness :
    (List.foldl processPayloadCont
        (processPayloadStart initialSubstream
          (mkAudioPacket true false 7 (List.replicate 24 0) 3 99 true 2 21 [10]))
        [[11, 20], [21]]).reassembled
      = (processPayloadStart initialSubstream
          (mkAudioPacket true false 7 (List.replicate 24 0) 3 99 true 2 21
            [10, 11, 20, 21])).reassembled :=
  (multi_fragment_refinement true false true 7 99 3 (List.replicate 24 0) [10, 11]
    [20, 21] [10] [[11, 20], [21]] (by decide) (Or.inl rfl) (by decide)
    (by intro h; cases h) (by decide) (by decide)).1

/-!
Claim theorems: malformed-packet rejections (C8).
-/

theorem setupSubstreamType_some_codec {st st1 : SubState} {a b : Nat}
    (h : setupSubstreamType st a b = some st1) :
    (st.substream_details_known = true → b = st.codec_type) ∧
    (st.substream_details_known = false → b = 3 ∨ b = 4) := by
  unfold setupSubstreamType at h
  split_ifs at h <;> simp_all

theorem setupSubstreamType_some_waiting {st st1 : SubState} {a b : Nat}
    (h : setupSubstreamType st a b = some st1) :
    st1.waiting_for_rap = st.waiting_for_rap := by
  unfold setupSubstreamType at h
  split_ifs at h <;> simp_all <;> subst h <;> simp

set_option maxHeartbeats 1000000 in
theorem early_malformed_reject_no_state_change (st : SubState) (buf : List Nat)
    (hst : st.status = 0) (hb : st.buffer = none)
    (hrej : earlyMalformedReject st buf = true) :
    processPayloadStart st buf = st := by
  simp only [earlyMalformedReject, Bool.or_eq_true, Bool.and_eq_true,
    decide_eq_true_eq, Bool.not_eq_true, Bool.not_eq_true'] at hrej
  rw [show processPayloadStart st buf = processPayloadStartIdle st buf from by
    simp [processPayloadStart, hst, hb]]
  simp only [processPayloadStartIdle]
  split_ifs with h1 h2 h3 h4 h5 h6 h7 h8 h9
  all_goals try rfl
  split
  · rfl
  rename_i st1 hsetup
  exfalso
  obtain ⟨hknown, hunknown⟩ := setupSubstreamType_some_codec hsetup
  rcases hrej with ((((((((((h | h) | h) | h) | h) | h) | h) | h) | h) | h) | h)
  · exact h1 h
  · exact h2 h
  · exact h3 h
  · exact h4 ⟨h.1, h.2⟩
  · exact h5 ⟨h.1, h.2⟩
  · exact h6 h
  · exact h7 ⟨h.1, h.2⟩
  · exact h8 h
  · exact h9 h
  · exact h.2 (hknown h.1)
  · rcases hunknown h.1.1 with hc3 | hc4
    · exact h.1.2 hc3
    · exact h.2 hc4

set_option maxHeartbeats 1000000 in
theorem aux_malformed_reject_partial_state_change (st : SubState) (buf : List Nat)
    (st1 : SubState) (hst : st.status = 0) (hb : st.buffer = none)
    (hrej : earlyMalformedReject st buf = false)
    (hsetup : setupSubstreamType st (headerType buf) (byteAt buf (parseOffset buf))
      = some st1)
    (hrap : st.waiting_for_rap = false ∨ byteAt buf (parseOffset buf + 1) / 8 % 2 = 1)
    (haux : byteAt buf (parseOffset buf + 1) / 16 % 2 = 1)
    (hshort : u32At buf 2 < minLength3 buf + 4 ∨ buf.length < minLength3 buf + 4) :
    processPayloadStart st buf
      = setRenderVolume st1 (byteAt buf (parseOffset buf + 2)) := by
  simp only [earlyMalformedReject, Bool.or_eq_false_iff,
    decide_eq_false_iff_not, not_lt, not_not, Bool.and_eq_false_iff,
    Bool.not_eq_true] at hrej
  obtain ⟨⟨⟨⟨⟨⟨⟨⟨⟨⟨g1, g2⟩, g3⟩, g4⟩, g5⟩, g6⟩, g7⟩, g8⟩, g9⟩, g10⟩, g11⟩ := hrej
  rw [show processPayloadStart st buf = processPayloadStartIdle st buf from by
    simp [processPayloadStart, hst, hb]]
  simp only [processPayloadStartIdle]
  rw [if_neg (by omega), if_neg (by simp [g2]), if_neg (by simp [g3]),
    if_neg (by rcases g4 with g | g <;> simp [g]),
    if_neg (by
      rintro ⟨ha2, hb2⟩
      rcases g5 with g | g
      · rw [g] at ha2
        cases ha2
      · omega),
    if_neg (by omega),
    if_neg (by
      rintro ⟨ha2, hb2⟩
      rcases g7 with g | g
      · rw [g] at ha2
        cases ha2
      · omega),
    if_neg (by omega), if_neg (by omega), hsetup]
  simp only [setRenderVolume_eq]
  rw [if_neg (by
    rintro ⟨ha2, hb2⟩
    have hw : st1.waiting_for_rap = st.waiting_for_rap :=
      setupSubstreamType_some_waiting hsetup
    rcases hrap with g | g
    · simp only [hw, g] at ha2
      cases ha2
    · exact hb2 g)]
  simp only [startAuxPhase]
  rw [if_pos haux]
  by_cases hq : u32At buf 2 < minLength3 buf + 4
  · rw [if_pos hq]
  · rw [if_neg hq, if_pos (by rcases hshort with g | g <;> omega)]

set_option maxHeartbeats 1000000 in
theorem aux_overflow_reject_partial_state_change (st : SubState) (buf : List Nat)
    (st1 : SubState) (hst : st.status = 0) (hb : st.buffer = none)
    (hrej : earlyMalformedReject st buf = false)
    (hsetup : setupSubstreamType st (headerType buf) (byteAt buf (parseOffset buf))
      = some st1)
    (hrap : st.waiting_for_rap = false ∨ byteAt buf (parseOffset buf + 1) / 8 % 2 = 1)
    (haux : byteAt buf (parseOffset buf + 1) / 16 % 2 = 1)
    (hlen1 : minLength3 buf + 4 ≤ u32At buf 2)
    (hlen2 : minLength3 buf + 4 ≤ buf.length)
    (hover : u32At buf 2 < u32At buf (parseOffset buf + 3) + (minLength3 buf + 4)) :
    processPayloadStart st buf
      = { setRenderVolume st1 (byteAt buf (parseOffset buf + 2)) with
            aux_data_expected_size := u32At buf (parseOffset buf + 3)
            aux_data_in_progress := [] } := by
  simp only [earlyMalformedReject, Bool.or_eq_false_iff,
    decide_eq_false_iff_not, not_lt, not_not, Bool.and_eq_false_iff,
    Bool.not_eq_true] at hrej
  obtain ⟨⟨⟨⟨⟨⟨⟨⟨⟨⟨g1, g2⟩, g3⟩, g4⟩, g5⟩, g6⟩, g7⟩, g8⟩, g9⟩, g10⟩, g11⟩ := hrej
  rw [show processPayloadStart st buf = processPayloadStartIdle st buf from by
    simp [processPayloadStart, hst, hb]]
  simp only [processPayloadStartIdle]
  rw [if_neg (by omega), if_neg (by simp [g2]), if_neg (by simp [g3]),
    if_neg (by rcases g4 with g | g <;> simp [g]),
    if_neg (by
      rintro ⟨ha2, hb2⟩
      rcases g5 with g | g
      · rw [g] at ha2
        cases ha2
      · omega),
    if_neg (by omega),
    if_neg (by
      rintro ⟨ha2, hb2⟩
      rcases g7 with g | g
      · rw [g] at ha2
        cases ha2
      · omega),
    if_neg (by omega), if_neg (by omega), hsetup]
  simp only [setRenderVolume_eq]
  rw [if_neg (by
    rintro ⟨ha2, hb2⟩
    have hw : st1.waiting_for_rap = st.waiting_for_rap :=
      setupSubstreamType_some_waiting hsetup
    rcases hrap with g | g
    · simp only [hw, g] at ha2
      cases ha2
    · exact hb2 g)]
  simp only [startAuxPhase]
  rw [if_pos haux, if_neg (by omega), if_neg (by omega)]
  simp only [startFillBuffer]
  rw [if_pos (by omega)]

/-- C8 counterexample: the fragment `[01 10 00 00 00 09 03 18 4D]` (version 1,
audio, declared length 9, MP3, flags RAP+aux-length-present, volume 77) is a
malformed packet — its declared length is too short to hold the aux-length
field, so it is dropped at the aux-length stage ("inconsistent declared
lengths") — yet processing it on a fresh substream changes state: the
substream kind/codec become established and the pump volume changes from 255
to 77, contradicting the claim that every such rejection leaves all substream
and pump state unchanged.  (No buffer is allocated and no unit emitted.) -/
theorem malformed_aux_reject_counterexample :
    processPayloadStart initialSubstream [1, 16, 0, 0, 0, 9, 3, 24, 77]
      ≠ initialSubstream ∧
    (processPayloadStart initialSubstream [1, 16, 0, 0, 0, 9, 3, 24, 77]).substream_details_known
      = true ∧
    (processPayloadStart initialSubstream [1, 16, 0, 0, 0, 9, 3, 24, 77]).pump_volume = 77 ∧
    initialSubstream.pump_volume = 255 ∧
    (processPayloadStart initialSubstream [1, 16, 0, 0, 0, 9, 3, 24, 77]).buffer = none ∧
    (processPayloadStart initialSubstream [1, 16, 0, 0, 0, 9, 3, 24, 77]).reassembled = [] := by
  decide

/-- C8 (amended): a malformed fragment-start rejected by any check that runs
before the codec/flags stage (short buffer, bad version, unsupported or
mismatched header kind, truncated timestamp/transform, short declared
length, unsupported codec, codec mismatch) leaves all substream and pump
state unchanged; a malformed fragment rejected at the aux-length stage
(declared or delivered length too short for the aux-length field, lines
256-267) still leaves the substream idle and emits no unit, but first
establishes the substream kind/codec (on a first fragment) and forwards the
packet's volume to the pump — its net effect is exactly `setupSubstreamType`
followed by `setRenderVolume`; and a malformed fragment whose declared aux
length plus header overhead exceeds the declared total length — the
inconsistent-declared-lengths check at line 278 — is likewise dropped with
the substream idle and no unit emitted, but on top of the kind/codec
establishment and the volume forward it also overwrites
`aux_data_expected_size_` with the parsed aux length and clears the aux
accumulator, because those writes (lines 270-271) precede the check.  (With
the aux-length flag absent the line-278 check cannot fire: the declared
length was already checked against the full header overhead at line 218.) -/
theorem malformed_rejection_state_contract :
    (∀ (st : SubState) (buf : List Nat), st.status = 0 → st.buffer = none →
      earlyMalformedReject st buf = true → processPayloadStart st buf = st) ∧
    (∀ (st : SubState) (buf : List Nat) (st1 : SubState), st.status = 0 →
      st.buffer = none → earlyMalformedReject st buf = false →
      setupSubstreamType st (headerType buf) (byteAt buf (parseOffset buf)) = some st1 →
      (st.waiting_for_rap = false ∨ byteAt buf (parseOffset buf + 1) / 8 % 2 = 1) →
      byteAt buf (parseOffset buf + 1) / 16 % 2 = 1 →
      (u32At buf 2 < minLength3 buf + 4 ∨ buf.length < minLength3 buf + 4) →
      processPayloadStart st buf
        = setRenderVolume st1 (byteAt buf (parseOffset buf + 2))) ∧
    (∀ (st : SubState) (buf : List Nat) (st1 : SubState), st.status = 0 →
      st.buffer = none → earlyMalformedReject st buf = false →
      setupSubstreamType st (headerType buf) (byteAt buf (parseOffset buf)) = some st1 →
      (st.waiting_for_rap = false ∨ byteAt buf (parseOffset buf + 1) / 8 % 2 = 1) →
      byteAt buf (parseOffset buf + 1) / 16 % 2 = 1 →
      minLength3 buf + 4 ≤ u32At buf 2 →
      minLength3 buf + 4 ≤ buf.length →
      u32At buf 2 < u32At buf (parseOffset buf + 3) + (minLength3 buf + 4) →
      processPayloadStart st buf
        = { setRenderVolume st1 (byteAt buf (parseOffset buf + 2)) with
              aux_data_expected_size := u32At buf (parseOffset buf + 3)
              aux_data_in_progress := [] }) :=
  ⟨early_malformed_reject_no_state_change, aux_malformed_reject_partial_state_change,
   aux_overflow_reject_partial_state_change⟩

/-- Witness for `malformed_rejection_state_contract`: a too-short declared
length (5) is rejected with no state change at all; the aux-length-stage
rejection of the C8 counterexample packet has exactly the
establish-type-then-set-volume net effect; and the packet
`[01 10 00 00 00 0D 03 18 4D 00 00 00 C8]` (declared length 13 with a
declared aux length of 200) is rejected at the line-278 check with the
parsed aux size 200 recorded and the aux accumulator cleared on top of the
kind/codec and volume writes. -/
theorem malformed_rejection_state_contract_witness :
    processPayloadStart initialSubstream [1, 16, 0, 0, 0, 5, 3, 8, 200]
      = initialSubstream ∧
    processPayloadStart initialSubstream [1, 16, 0, 0, 0, 9, 3, 24, 77]
      = setRenderVolume
          { initialSubstream with
              substream_type := 1
              codec_type := 3
              substream_details_known := true } 77 ∧
    processPayloadStart initialSubstream [1, 16, 0, 0, 0, 13, 3, 24, 77, 0, 0, 0, 200]
      = { setRenderVolume
            { initialSubstream with
                substream_type := 1
                codec_type := 3
                substream_details_known := true } 77 with
          aux_data_expected_size := 200
          aux_data_in_progress := [] } :=
  ⟨malformed_rejection_state_contract.1 initialSubstream [1, 16, 0, 0, 0, 5, 3, 8, 200]
     rfl rfl (by decide),
   malformed_rejection_state_contract.2.1 initialSubstream [1, 16, 0, 0, 0, 9, 3, 24, 77]
     { initialSubstream with
         substream_type := 1
         codec_type := 3
         substream_details_known := true }
     rfl rfl (by decide) (by decide) (Or.inr (by decide)) (by decide)
     (Or.inl (by decide)),
   by
     have h := malformed_rejection_state_contract.2.2 initialSubstream
       [1, 16, 0, 0, 0, 13, 3, 24, 77, 0, 0, 0, 200]
       { initialSubstream with
           substream_type := 1
           codec_type := 3
           substream_details_known := true }
       rfl rfl (by decide) (by decide) (Or.inr (by decide)) (by decide)
       (by decide) (by decide) (by decide)
     exact h⟩
